import Mathlib

/-!
Shallow embedding of the MOV/MP4 demuxer from `packages/mov-demuxer/src`
(`byte-reader.ts`, `box-parser.ts`, `sample-table.ts`, `stream-parser.ts`,
`demuxer.ts`, `errors.ts`), together with theorems about its behaviour.

Modelling conventions:
* Byte buffers are `List ℕ` (each entry one byte value).
* JavaScript `number` arithmetic on timestamps, durations and frame rates is
  modelled in exact rationals (`ℚ`).  Counterexamples below are evaluated at
  inputs for which the IEEE-754 double computation is exact (dyadic values well
  below 2^53), so they are also counterexamples for the floating-point code.
* `DataView` / `Uint8Array` out-of-range accesses throw `RangeError`; this is
  the `rangeError` variant below.  `throw new Error(msg)` is `jsError msg`.
  The typed `MOVError` values of `errors.ts` are the `movError` variant.
* Fallible code returns `Except DemuxError`; parsers over a byte payload run in
  `StateT ByteReader (Except DemuxError)`.  The demuxer always constructs its
  readers big-endian (`littleEndian = false`), so only the big-endian decoding
  paths are embedded.
-/

deriving instance DecidableEq for Except

namespace MovDemuxer

/-- Error codes of `errors.ts` (`MOVErrorCode`). -/
inductive MOVErrorCode where
  | INVALID_FILE_FORMAT
  | UNSUPPORTED_CODEC
  | CORRUPT_DATA
  | WEBCODECS_NOT_SUPPORTED
  | DECODER_ERROR
  | SEEK_ERROR
  | SAMPLE_NOT_FOUND
  | STREAM_NOT_FOUND
  | INVALID_BOX_SIZE
  | MISSING_REQUIRED_BOX
  | INVALID_SAMPLE_TABLE
  deriving Repr, DecidableEq

/-- The errors JavaScript execution of the demuxer can surface:
native `RangeError`s from `DataView`/`Uint8Array` bounds violations,
plain `new Error(msg)` throws, and the typed `MOVError` of `errors.ts`. -/
inductive DemuxError where
  | rangeError
  | jsError (msg : String)
  | movError (code : MOVErrorCode) (msg : String)
  deriving Repr, DecidableEq

/-- `ByteReader` over an immutable byte buffer (`byte-reader.ts`).
Only the big-endian configuration is used by the demuxer. -/
structure ByteReader where
  data : List ℕ
  pos : ℕ
  deriving Repr, DecidableEq

/-- `get remaining(): number` — may be negative after `skip` past the end. -/
def ByteReader.remaining (r : ByteReader) : ℤ :=
  (r.data.length : ℤ) - (r.pos : ℤ)

/-- Monad of payload parsers: reader state with JavaScript exceptions. -/
abbrev ParseM := StateT ByteReader (Except DemuxError)

/-- `readUint8` (`DataView.getUint8` throws `RangeError` out of range). -/
def readUint8 : ParseM ℕ := fun r =>
  match r.data[r.pos]? with
  | some b => .ok (b, { r with pos := r.pos + 1 })
  | none => .error .rangeError

/-- `readUint16`, big-endian. -/
def readUint16 : ParseM ℕ := fun r =>
  if r.pos + 2 ≤ r.data.length then
    .ok (r.data.getD r.pos 0 * 256 + r.data.getD (r.pos + 1) 0,
         { r with pos := r.pos + 2 })
  else .error .rangeError

/-- `readUint24` (big-endian branch: three `readUint8`s shifted together). -/
def readUint24 : ParseM ℕ := do
  let b0 ← readUint8
  let b1 ← readUint8
  let b2 ← readUint8
  return b0 * 65536 + b1 * 256 + b2

/-- `readUint32`, big-endian. -/
def readUint32 : ParseM ℕ := fun r =>
  if r.pos + 4 ≤ r.data.length then
    .ok (r.data.getD r.pos 0 * 16777216 + r.data.getD (r.pos + 1) 0 * 65536 +
           r.data.getD (r.pos + 2) 0 * 256 + r.data.getD (r.pos + 3) 0,
         { r with pos := r.pos + 4 })
  else .error .rangeError

/-- `readUint64`, big-endian (`getBigUint64`; values are exact naturals here). -/
def readUint64 : ParseM ℕ := fun r =>
  if r.pos + 8 ≤ r.data.length then
    .ok ((List.range 8).foldl (fun acc i => acc * 256 + r.data.getD (r.pos + i) 0) 0,
         { r with pos := r.pos + 8 })
  else .error .rangeError

/-- `readInt16`: two's-complement 16-bit. -/
def readInt16 : ParseM ℤ := do
  let v ← readUint16
  return if v < 32768 then (v : ℤ) else (v : ℤ) - 65536

/-- `readInt32`: two's-complement 32-bit. -/
def readInt32 : ParseM ℤ := do
  let v ← readUint32
  return if v < 2147483648 then (v : ℤ) else (v : ℤ) - 4294967296

/-- `readBytes(length)`: a `Uint8Array` view of the next `length` bytes,
throwing `RangeError` when the view would exceed the buffer. -/
def readBytes (n : ℕ) : ParseM (List ℕ) := fun r =>
  if r.pos + n ≤ r.data.length then
    .ok ((r.data.drop r.pos).take n, { r with pos := r.pos + n })
  else .error .rangeError

/-- ASCII string from byte values (`String.fromCodePoint`). -/
def asciiString (bytes : List ℕ) : String :=
  String.mk (bytes.map Char.ofNat)

/-- `readString(length, 'ascii')`. -/
def readString (n : ℕ) : ParseM String := do
  let bytes ← readBytes n
  return asciiString bytes

/-- `readFourCC()`. -/
def readFourCC : ParseM String := readString 4

/-- `readFixed16()`: `readInt32() / (1 << 16)` (note: same divisor as fixed32). -/
def readFixed16 : ParseM ℚ := do
  let v ← readInt32
  return (v : ℚ) / 65536

/-- `readFixed32()`: `readInt32() / (1 << 16)`. -/
def readFixed32 : ParseM ℚ := do
  let v ← readInt32
  return (v : ℚ) / 65536

/-- `skip(bytes)` — no bounds check in the source. -/
def skipBytes (n : ℕ) : ParseM Unit := fun r =>
  .ok ((), { r with pos := r.pos + n })

/-! ### Box model (`types.ts` `MOVBox` / `MOVAtom`, `box-parser.ts`) -/

/-- `MOVAtom`: header of a box (`type`, `size`, `offset`). -/
structure MOVAtom where
  type : String
  size : ℕ
  offset : ℕ
  deriving Repr, DecidableEq

/-- `MOVBox`: a parsed box.  Leaf boxes carry `data`, containers `children`. -/
inductive MOVBox where
  | mk (type : String) (size : ℕ) (offset : ℕ)
       (data : Option (List ℕ)) (children : Option (List MOVBox))

def MOVBox.type : MOVBox → String
  | .mk t _ _ _ _ => t

def MOVBox.size : MOVBox → ℕ
  | .mk _ s _ _ _ => s

def MOVBox.offset : MOVBox → ℕ
  | .mk _ _ o _ _ => o

def MOVBox.data : MOVBox → Option (List ℕ)
  | .mk _ _ _ d _ => d

def MOVBox.children : MOVBox → Option (List MOVBox)
  | .mk _ _ _ _ c => c

mutual

/-- `BoxParser.findBox`: pre-order depth-first search for a box type. -/
def findBox : List MOVBox → String → Option MOVBox
  | [], _ => none
  | b :: rest, t =>
    match findBoxIn b t with
    | some r => some r
    | none => findBox rest t

/-- One step of `findBox`: check the box itself, else recurse into children. -/
def findBoxIn : MOVBox → String → Option MOVBox
  | .mk ty sz off d cs, t =>
    if ty = t then some (.mk ty sz off d cs)
    else
      match cs with
      | some children => findBox children t
      | none => none

end

mutual

/-- `BoxParser.findAllBoxes`: collect every box of a type (the source also
descends into the children of a matching box). -/
def findAllBoxes : List MOVBox → String → List MOVBox
  | [], _ => []
  | b :: rest, t => findAllIn b t ++ findAllBoxes rest t

/-- One step of `findAllBoxes`. -/
def findAllIn : MOVBox → String → List MOVBox
  | .mk ty sz off d cs, t =>
    (if ty = t then [MOVBox.mk ty sz off d cs] else []) ++
      (match cs with
       | some children => findAllBoxes children t
       | none => [])

end

/-- `BoxParser.readBoxHeader` (`box-parser.ts` lines 28–53).  Note the source
reassigns `size` from the 64-bit `largesize` *before* evaluating
`size === 1 ? 16 : 8` in the offset computation. -/
def readBoxHeader : ParseM (Option MOVAtom) := do
  let r0 ← get
  if r0.remaining < 8 then
    return none
  let size32 ← readUint32
  let ty ← readFourCC
  let mut size := size32
  if size32 = 1 then
    let r1 ← get
    if r1.remaining < 8 then
      return none
    let extendedSize ← readUint64
    size := extendedSize
  else if size32 = 0 then
    let r1 ← get
    size := r1.remaining.toNat + 8
  let r2 ← get
  let offset := r2.pos - (if size = 1 then 16 else 8)
  return some ⟨ty, size, offset⟩

/-- The payload length computed by `BoxParser.parseBox` (line 82):
`dataSize = atom.size - (this.reader.position - atom.offset)`. -/
def parseBoxDataSize (atom : MOVAtom) (pos : ℕ) : ℤ :=
  (atom.size : ℤ) - ((pos : ℤ) - (atom.offset : ℤ))

/-! ### Sample table (`sample-table.ts`) -/

/-- One `stsc` entry. -/
structure STSCEntry where
  firstChunk : ℕ
  samplesPerChunk : ℕ
  descriptionIndex : ℕ
  deriving Repr, DecidableEq

/-- One `stts` entry. -/
structure STTSEntry where
  count : ℕ
  delta : ℕ
  deriving Repr, DecidableEq

/-- `MOVSampleTable` (`types.ts`). -/
structure MOVSampleTable where
  sampleSizes : List ℕ
  chunkOffsets : List ℕ
  samplesPerChunk : List STSCEntry
  timeToSample : List STTSEntry
  syncSamples : Option (List ℕ)
  deriving Repr, DecidableEq

/-- `MOVSample` (`types.ts`): `timestamp` and `duration` are in microseconds
(JavaScript numbers, modelled as exact rationals). -/
structure MOVSample where
  offset : ℕ
  size : ℕ
  timestamp : ℚ
  duration : ℚ
  isKeyframe : Bool
  streamId : ℕ
  deriving Repr, DecidableEq

/-- Loop of `parseSTSZ`/`parseSTSS`: read `n` consecutive `u32` values. -/
def readUint32List : ℕ → ParseM (List ℕ)
  | 0 => return []
  | n + 1 => do
    let v ← readUint32
    let rest ← readUint32List n
    return v :: rest

/-- `SampleTableParser.parseSTSZ`. -/
def parseSTSZ (box : MOVBox) : Except DemuxError (List ℕ) :=
  match box.data with
  | none => .ok []
  | some d =>
    (do
      let _version ← readUint8
      let _flags ← readUint24
      let uniformSize ← readUint32
      let sampleCount ← readUint32
      if uniformSize = 0 then
        readUint32List sampleCount
      else
        return List.replicate sampleCount uniformSize).run' ⟨d, 0⟩

/-- Loop of `parseSTCO`: `n` offsets, 64-bit when the box is `co64`. -/
def readOffsetList (is64Bit : Bool) : ℕ → ParseM (List ℕ)
  | 0 => return []
  | n + 1 => do
    let v ← if is64Bit then readUint64 else readUint32
    let rest ← readOffsetList is64Bit n
    return v :: rest

/-- `SampleTableParser.parseSTCO` (also handles `co64`). -/
def parseSTCO (box : MOVBox) : Except DemuxError (List ℕ) :=
  match box.data with
  | none => .ok []
  | some d =>
    (do
      let _version ← readUint8
      let _flags ← readUint24
      let entryCount ← readUint32
      readOffsetList (box.type = "co64") entryCount).run' ⟨d, 0⟩

/-- Loop of `parseSTSC`: `n` `(firstChunk, samplesPerChunk, descriptionIndex)`
triples. -/
def readSTSCEntries : ℕ → ParseM (List STSCEntry)
  | 0 => return []
  | n + 1 => do
    let fc ← readUint32
    let spc ← readUint32
    let di ← readUint32
    let rest ← readSTSCEntries n
    return ⟨fc, spc, di⟩ :: rest

/-- `SampleTableParser.parseSTSC`. -/
def parseSTSC (box : MOVBox) : Except DemuxError (List STSCEntry) :=
  match box.data with
  | none => .ok []
  | some d =>
    (do
      let _version ← readUint8
      let _flags ← readUint24
      let entryCount ← readUint32
      readSTSCEntries entryCount).run' ⟨d, 0⟩

/-- Loop of `parseSTTS`: `n` `(count, delta)` pairs. -/
def readSTTSEntries : ℕ → ParseM (List STTSEntry)
  | 0 => return []
  | n + 1 => do
    let c ← readUint32
    let dl ← readUint32
    let rest ← readSTTSEntries n
    return ⟨c, dl⟩ :: rest

/-- `SampleTableParser.parseSTTS`. -/
def parseSTTS (box : MOVBox) : Except DemuxError (List STTSEntry) :=
  match box.data with
  | none => .ok []
  | some d =>
    (do
      let _version ← readUint8
      let _flags ← readUint24
      let entryCount ← readUint32
      readSTTSEntries entryCount).run' ⟨d, 0⟩

/-- `SampleTableParser.parseSTSS`. -/
def parseSTSS (box : MOVBox) : Except DemuxError (List ℕ) :=
  match box.data with
  | none => .ok []
  | some d =>
    (do
      let _version ← readUint8
      let _flags ← readUint24
      let entryCount ← readUint32
      readUint32List entryCount).run' ⟨d, 0⟩

/-- `SampleTableParser.parseSampleTable`: each sub-box decodes independently;
`syncSamples` is set only when an `stss` box is present. -/
def parseSampleTable (stblBox : MOVBox) : Except DemuxError (Option MOVSampleTable) := do
  match stblBox.children with
  | none => return none
  | some children =>
    let sampleSizes ←
      match findBox children "stsz" with
      | some b => parseSTSZ b
      | none => pure []
    let chunkOffsets ←
      match (findBox children "stco").orElse (fun _ => findBox children "co64") with
      | some b => parseSTCO b
      | none => pure []
    let samplesPerChunk ←
      match findBox children "stsc" with
      | some b => parseSTSC b
      | none => pure []
    let timeToSample ←
      match findBox children "stts" with
      | some b => parseSTTS b
      | none => pure []
    let syncSamples ←
      match findBox children "stss" with
      | some b => do
        let l ← parseSTSS b
        pure (some l)
      | none => pure none
    return some ⟨sampleSizes, chunkOffsets, samplesPerChunk, timeToSample, syncSamples⟩

/-- `samplesPerChunk[entry+1]?.firstChunk || chunkCount + 1` (JavaScript `||`
also replaces a zero `firstChunk` with the fallback). -/
def nextFirstChunkAfter (spc : List STSCEntry) (chunkCount entry : ℕ) : ℕ :=
  match spc[entry + 1]? with
  | some e => if e.firstChunk = 0 then chunkCount + 1 else e.firstChunk
  | none => chunkCount + 1

/-- Chunk loop of `buildChunkToSampleMapping`: `n` chunks remaining,
`chunkIndex` is the current 0-based chunk, `currentEntry`/`nextFirstChunk` the
`stsc` cursor. -/
def chunkMapGo (spc : List STSCEntry) (chunkCount : ℕ) :
    ℕ → ℕ → ℕ → ℕ → List ℕ
  | 0, _, _, _ => []
  | n + 1, chunkIndex, currentEntry, nextFirstChunk =>
    let advance := chunkIndex + 1 ≥ nextFirstChunk ∧ currentEntry + 1 < spc.length
    let currentEntry' := if advance then currentEntry + 1 else currentEntry
    let nextFirstChunk' :=
      if advance then nextFirstChunkAfter spc chunkCount currentEntry' else nextFirstChunk
    (spc.getD currentEntry' ⟨0, 0, 0⟩).samplesPerChunk ::
      chunkMapGo spc chunkCount n (chunkIndex + 1) currentEntry' nextFirstChunk'

/-- `SampleTableParser.buildChunkToSampleMapping`. -/
def buildChunkToSampleMapping (st : MOVSampleTable) : List ℕ :=
  let chunkCount := st.chunkOffsets.length
  if st.samplesPerChunk.length = 0 then
    List.replicate chunkCount 0
  else
    chunkMapGo st.samplesPerChunk chunkCount chunkCount 0 0
      (nextFirstChunkAfter st.samplesPerChunk chunkCount 0)

/-- Mutable state of the `buildSampleIndex` loops.  `timeEntryRemaining` is an
integer: the source decrements it below zero when an `stts` entry has
`count = 0`. -/
structure BuildState where
  sampleIndex : ℕ
  currentTime : ℕ
  timeEntryIndex : ℕ
  timeEntryRemaining : ℤ
  currentDelta : ℕ
  samples : List MOVSample
  deriving Repr, DecidableEq

/-- Timestamp bookkeeping after one sample is emitted (`buildSampleIndex`
lines 311–322). -/
def stepTime (tts : List STTSEntry) (s : BuildState) : BuildState :=
  let s1 := { s with
    currentTime := s.currentTime + s.currentDelta
    timeEntryRemaining := s.timeEntryRemaining - 1 }
  if s1.timeEntryRemaining = 0 ∧ s1.timeEntryIndex + 1 < tts.length then
    let e := tts.getD (s1.timeEntryIndex + 1) ⟨0, 0⟩
    { s1 with
      timeEntryIndex := s1.timeEntryIndex + 1
      timeEntryRemaining := (e.count : ℤ)
      currentDelta := e.delta }
  else s1

/-- Keyframe flag of the sample with 0-based index `sampleIndex`
(`stss` uses 1-based indexing; absent `stss` means every sample is one). -/
def keyframeFlag (syncSamples : Option (List ℕ)) (sampleIndex : ℕ) : Bool :=
  syncSamples.isNone || (syncSamples.getD []).contains (sampleIndex + 1)

/-- Inner loop of `buildSampleIndex`: emit up to `n` samples of one chunk at
`chunkOffset`, `offInChunk` bytes into the chunk. -/
def emitChunk (table : MOVSampleTable) (streamId timeScale : ℕ) (chunkOffset : ℕ) :
    ℕ → ℕ → BuildState → BuildState
  | 0, _, s => s
  | n + 1, offInChunk, s =>
    if s.sampleIndex ≥ table.sampleSizes.length then s
    else
      let sampleSize := table.sampleSizes.getD s.sampleIndex 0
      let sample : MOVSample :=
        { offset := chunkOffset + offInChunk
          size := sampleSize
          timestamp := ((s.currentTime : ℚ) / (timeScale : ℚ)) * 1000000
          duration := ((s.currentDelta : ℚ) / (timeScale : ℚ)) * 1000000
          isKeyframe := keyframeFlag table.syncSamples s.sampleIndex
          streamId := streamId }
      let s' := stepTime table.timeToSample
        { s with sampleIndex := s.sampleIndex + 1, samples := s.samples ++ [sample] }
      emitChunk table streamId timeScale chunkOffset n (offInChunk + sampleSize) s'

/-- Outer loop of `buildSampleIndex` over chunk indices. -/
def buildLoop (table : MOVSampleTable) (streamId timeScale : ℕ)
    (chunkToSamples : List ℕ) : List ℕ → BuildState → BuildState
  | [], s => s
  | chunkIndex :: rest, s =>
    buildLoop table streamId timeScale chunkToSamples rest
      (emitChunk table streamId timeScale (table.chunkOffsets.getD chunkIndex 0)
        (chunkToSamples.getD chunkIndex 0) 0 s)

/-- `SampleTableParser.buildSampleIndex`. -/
def buildSampleIndex (table : MOVSampleTable) (streamId timeScale : ℕ) :
    List MOVSample :=
  if table.sampleSizes.length = 0 then []
  else
    let chunkToSamples := buildChunkToSampleMapping table
    let s0 : BuildState :=
      { sampleIndex := 0
        currentTime := 0
        timeEntryIndex := 0
        timeEntryRemaining := (((table.timeToSample[0]?).map (·.count)).getD 0 : ℕ)
        currentDelta := ((table.timeToSample[0]?).map (·.delta)).getD 0
        samples := [] }
    (buildLoop table streamId timeScale chunkToSamples
      (List.range table.chunkOffsets.length) s0).samples

/-! ### Stream parser (`stream-parser.ts`) -/

/-- Track kind from the `hdlr` component subtype. -/
inductive StreamType where
  | video
  | audio
  deriving Repr, DecidableEq

/-- `MOVStreamContext` (`types.ts`); optional fields are `Option`s. -/
structure MOVStreamContext where
  id : ℕ
  type : StreamType
  codecType : String
  codecPrivate : Option (List ℕ) := none
  timeScale : ℕ
  duration : ℕ
  width : Option ℕ := none
  height : Option ℕ := none
  frameRate : Option ℚ := none
  avgFrameRate : Option ℚ := none
  bitRate : Option ℤ := none
  avgBitRate : Option ℤ := none
  sampleRate : Option ℚ := none
  channels : Option ℕ := none
  bitDepth : Option ℕ := none
  extraData : Option (List ℕ) := none
  deriving Repr, DecidableEq

/-- Result of `parseSTSD` (`SampleDescription` of `types.ts`). -/
structure SampleDescription where
  codecType : String
  codecPrivate : Option (List ℕ) := none
  width : Option ℕ := none
  height : Option ℕ := none
  depth : Option ℕ := none
  compressorName : Option String := none
  sampleRate : Option ℚ := none
  channels : Option ℕ := none
  bitDepth : Option ℕ := none
  extraData : Option (List ℕ) := none
  deriving Repr, DecidableEq

/-- `StreamParser.parseMDHD`. -/
def parseMDHD (box : MOVBox) : Except DemuxError (ℕ × ℕ) :=
  match box.data with
  | none => .ok (1000, 0)
  | some d =>
    (do
      let version ← readUint8
      let _flags ← readUint24
      let (timeScale, duration) ←
        if version = 1 then do
          let _creationTime ← readUint64
          let _modificationTime ← readUint64
          let ts ← readUint32
          let dur ← readUint64
          pure (ts, dur)
        else do
          let _creationTime ← readUint32
          let _modificationTime ← readUint32
          let ts ← readUint32
          let dur ← readUint32
          pure (ts, dur)
      let _language ← readUint16
      let _quality ← readUint16
      return (timeScale, duration)).run' ⟨d, 0⟩

/-- `StreamParser.parseHDLR`. -/
def parseHDLR (box : MOVBox) : Except DemuxError (String × String) :=
  match box.data with
  | none => .ok ("", "")
  | some d =>
    (do
      let _version ← readUint8
      let _flags ← readUint24
      let _componentType ← readFourCC
      let componentSubtype ← readFourCC
      let _componentManufacturer ← readUint32
      let _componentFlags ← readUint32
      let _componentFlagsMask ← readUint32
      let r ← get
      if r.remaining > 0 then
        let nameLength ← readUint8
        let r1 ← get
        if nameLength > 0 ∧ (nameLength : ℤ) ≤ r1.remaining then
          let name ← readString nameLength
          return (componentSubtype, name)
        else
          return (componentSubtype, "")
      else
        return (componentSubtype, "")).run' ⟨d, 0⟩

/-- `StreamParser.parseVideoSampleDescription`. -/
def parseVideoSampleDescription (codecType : String) (entrySize : ℕ) :
    ParseM SampleDescription := do
  let _version ← readUint16
  let _revisionLevel ← readUint16
  let _vendor ← readUint32
  let _temporalQuality ← readUint32
  let _spatialQuality ← readUint32
  let width ← readUint16
  let height ← readUint16
  let _horizResolution ← readFixed32
  let _vertResolution ← readFixed32
  let _dataSize ← readUint32
  let _frameCount ← readUint16
  let compressorNameLength ← readUint8
  let compressorName ← readString (min compressorNameLength 31)
  skipBytes (31 - min compressorNameLength 31)
  let depth ← readUint16
  let _colorTableId ← readInt16
  let r ← get
  let remainingBytes : ℤ := (entrySize : ℤ) - ((r.pos : ℤ) - 8)
  let extraData ←
    if remainingBytes > 0 then do
      let b ← readBytes remainingBytes.toNat
      pure (some b)
    else pure none
  return { codecType := codecType, width := some width, height := some height,
           depth := some depth, compressorName := some compressorName,
           extraData := extraData }

/-- `StreamParser.parseAudioSampleDescription`. -/
def parseAudioSampleDescription (codecType : String) (entrySize : ℕ) :
    ParseM SampleDescription := do
  let _version ← readUint16
  let _revisionLevel ← readUint16
  let _vendor ← readUint32
  let channels ← readUint16
  let bitDepth ← readUint16
  let _compressionId ← readInt16
  let _packetSize ← readUint16
  let sampleRate ← readFixed16
  let r ← get
  let remainingBytes : ℤ := (entrySize : ℤ) - ((r.pos : ℤ) - 8)
  let extraData ←
    if remainingBytes > 0 then do
      let b ← readBytes remainingBytes.toNat
      pure (some b)
    else pure none
  return { codecType := codecType, sampleRate := some sampleRate,
           channels := some channels, bitDepth := some bitDepth,
           extraData := extraData }

/-- `StreamParser.parseSTSD`. -/
def parseSTSD (box : MOVBox) (streamType : StreamType) :
    Except DemuxError SampleDescription :=
  match box.data with
  | none => .ok { codecType := "unknown" }
  | some d =>
    (do
      let _version ← readUint8
      let _flags ← readUint24
      let entryCount ← readUint32
      if entryCount = 0 then
        return ({ codecType := "unknown" } : SampleDescription)
      let entrySize ← readUint32
      let codecType ← readFourCC
      let _reserved ← readBytes 6
      let _dataReferenceIndex ← readUint16
      match streamType with
      | .video => parseVideoSampleDescription codecType entrySize
      | .audio => parseAudioSampleDescription codecType entrySize).run' ⟨d, 0⟩

/-- `Math.round` on a finite positive-or-negative value: half rounds up. -/
def jsRound (q : ℚ) : ℤ := ⌊q + 1 / 2⌋

/-- `Math.round(x * 1000) / 1000`: round to three decimal places. -/
def round3 (q : ℚ) : ℚ := (jsRound (q * 1000) : ℚ) / 1000

/-- Accumulator loop of `calculateFrameRate` over `stts` entries:
`(totalSamples, totalDuration, commonDelta, isConstantFrameRate)`. -/
def fpsLoop : ℕ → ℕ × ℕ × ℤ × Bool → ParseM (ℕ × ℕ × ℤ × Bool)
  | 0, acc => return acc
  | n + 1, (totalSamples, totalDuration, commonDelta, isConstant) => do
    let sampleCount ← readUint32
    let sampleDelta ← readUint32
    let commonDelta' := if commonDelta = -1 then (sampleDelta : ℤ) else commonDelta
    let isConstant' :=
      if commonDelta = -1 then isConstant
      else if commonDelta ≠ (sampleDelta : ℤ) then false
      else isConstant
    fpsLoop n (totalSamples + sampleCount, totalDuration + sampleCount * sampleDelta,
      commonDelta', isConstant')

/-- `StreamParser.calculateFrameRate`: `(frameRate, avgFrameRate)` rounded to
three decimals, or `none` when omitted. -/
def calculateFrameRate (stblBox : MOVBox) (timeScale : ℕ) :
    Except DemuxError (Option (ℚ × ℚ)) := do
  match stblBox.children with
  | none => return none
  | some children =>
    match findBox children "stts" with
    | none => return none
    | some sttsBox =>
      match sttsBox.data with
      | none => return none
      | some d =>
        (do
          let _version ← readUint8
          let _flags ← readUint24
          let entryCount ← readUint32
          if entryCount = 0 then
            return none
          let (totalSamples, totalDuration, commonDelta, isConstant) ←
            fpsLoop entryCount (0, 0, -1, true)
          if totalSamples = 0 ∨ totalDuration = 0 then
            return none
          let avgFrameRate : ℚ :=
            ((totalSamples : ℚ) * (timeScale : ℚ)) / (totalDuration : ℚ)
          let frameRate : ℚ :=
            if isConstant ∧ commonDelta > 0 then (timeScale : ℚ) / (commonDelta : ℚ)
            else avgFrameRate
          return some (round3 frameRate, round3 avgFrameRate)).run' ⟨d, 0⟩

/-- `StreamParser.parseTrack`. -/
def parseTrack (trakBox : MOVBox) (trackId : ℕ) :
    Except DemuxError (Option MOVStreamContext) := do
  match trakBox.children with
  | none => return none
  | some trakChildren =>
    match findBox trakChildren "mdia" with
    | none => return none
    | some mdiaBox =>
      match mdiaBox.children with
      | none => return none
      | some mdiaChildren =>
        match findBox mdiaChildren "mdhd" with
        | none => return none
        | some mdhdBox =>
          let (timeScale, duration) ← parseMDHD mdhdBox
          match findBox mdiaChildren "hdlr" with
          | none => return none
          | some hdlrBox =>
            let (handlerType, _handlerName) ← parseHDLR hdlrBox
            let streamType ←
              if handlerType = "vide" then pure (some StreamType.video)
              else if handlerType = "soun" then pure (some StreamType.audio)
              else pure none
            match streamType with
            | none => return none
            | some streamType =>
              match findBox mdiaChildren "minf" with
              | none => return none
              | some minfBox =>
                match minfBox.children with
                | none => return none
                | some minfChildren =>
                  match findBox minfChildren "stbl" with
                  | none => return none
                  | some stblBox =>
                    match stblBox.children with
                    | none => return none
                    | some _stblChildren =>
                      match findBox _stblChildren "stsd" with
                      | none => return none
                      | some stsdBox =>
                        let sampleDesc ← parseSTSD stsdBox streamType
                        let base : MOVStreamContext :=
                          { id := trackId
                            type := streamType
                            codecType := sampleDesc.codecType
                            codecPrivate := sampleDesc.codecPrivate
                            timeScale := timeScale
                            duration := duration
                            extraData := sampleDesc.extraData }
                        match streamType with
                        | .video => do
                          let frameRates ← calculateFrameRate stblBox timeScale
                          let withDims :=
                            { base with width := sampleDesc.width,
                                        height := sampleDesc.height }
                          match frameRates with
                          | some (fr, avg) =>
                            return some { withDims with frameRate := some fr,
                                                        avgFrameRate := some avg }
                          | none => return some withDims
                        | .audio =>
                          return some { base with
                            sampleRate := sampleDesc.sampleRate
                            channels := sampleDesc.channels
                            bitDepth := sampleDesc.bitDepth }

/-! ### Demuxer facade (`demuxer.ts`) -/

/-- `FTYPInfo` (`types.ts`). -/
structure FTYPInfo where
  majorBrand : String
  minorVersion : ℕ
  compatibleBrands : List String
  deriving Repr, DecidableEq

/-- Compatible-brand loop of `parseFTYP` (`while (reader.remaining >= 4)`).
The fuel argument only bounds the recursion; each iteration consumes four
bytes, so fuel `data.length + 1` is never exhausted. -/
def readBrands : ℕ → ParseM (List String)
  | 0 => return []
  | n + 1 => do
    let r ← get
    if r.remaining ≥ 4 then
      let brand ← readFourCC
      let rest ← readBrands n
      return brand :: rest
    else
      return []

/-- `MOVDemuxer.parseFTYP`. -/
def parseFTYP (box : MOVBox) : Except DemuxError (Option FTYPInfo) :=
  match box.data with
  | none => .ok none
  | some d =>
    (do
      let majorBrand ← readFourCC
      let minorVersion ← readUint32
      let compatibleBrands ← readBrands (d.length + 1)
      return some (⟨majorBrand, minorVersion, compatibleBrands⟩ : FTYPInfo)).run' ⟨d, 0⟩

/-- `MOVDemuxer.parseMVHD`: `(timeScale, duration)`, `none` when the box has
no payload. -/
def parseMVHD (box : MOVBox) : Except DemuxError (Option (ℕ × ℕ)) :=
  match box.data with
  | none => .ok none
  | some d =>
    (do
      let version ← readUint8
      let _flags ← readUint24
      let (timeScale, duration) ←
        if version = 1 then do
          let _creationTime ← readUint64
          let _modificationTime ← readUint64
          let ts ← readUint32
          let dur ← readUint64
          pure (ts, dur)
        else do
          let _creationTime ← readUint32
          let _modificationTime ← readUint32
          let ts ← readUint32
          let dur ← readUint32
          pure (ts, dur)
      let _rate ← readFixed32
      let _volume ← readFixed16
      return some (timeScale, duration)).run' ⟨d, 0⟩

/-- `MOVDemuxerOptions` after the constructor merges in its defaults. -/
structure MOVDemuxerOptions where
  enableVideo : Bool := true
  enableAudio : Bool := true
  debug : Bool := false
  deriving Repr, DecidableEq

/-- State of an initialised demuxer (`MOVContext` plus the flat sample list;
`sampleTables` keeps insertion order of the JavaScript `Map`). -/
structure InitResult where
  ftyp : Option FTYPInfo
  streams : List MOVStreamContext
  sampleTables : List (ℕ × MOVSampleTable)
  mdatOffset : ℕ
  mdatSize : ℤ
  timeScale : ℕ
  duration : ℕ
  samples : List MOVSample
  deriving Repr, DecidableEq

/-- Comparator of `init`'s sort, `(a, b) => a.timestamp - b.timestamp`. -/
def sampleLE (a b : MOVSample) : Prop := a.timestamp ≤ b.timestamp

instance : DecidableRel sampleLE := fun a b =>
  inferInstanceAs (Decidable (a.timestamp ≤ b.timestamp))

instance : IsTotal MOVSample sampleLE :=
  ⟨fun a b => le_total a.timestamp b.timestamp⟩

instance : IsTrans MOVSample sampleLE :=
  ⟨fun _ _ _ hab hbc => le_trans hab hbc⟩

/-- `this.samples.sort((a, b) => a.timestamp - b.timestamp)`:
`Array.prototype.sort` is a stable sort, and a stable sort under a total
preorder is unique, so insertion sort realises it exactly. -/
def sortSamples (l : List MOVSample) : List MOVSample :=
  List.insertionSort sampleLE l

/-- Per-track loop of `init` (lines 98–128): parse each `trak`, keep enabled
kinds, parse its sample table, build and append its sample index. -/
def trackLoop (options : MOVDemuxerOptions) :
    List (ℕ × MOVBox) →
    List MOVStreamContext × List (ℕ × MOVSampleTable) × List MOVSample →
    Except DemuxError
      (List MOVStreamContext × List (ℕ × MOVSampleTable) × List MOVSample)
  | [], acc => pure acc
  | (i, trakBox) :: rest, (streams, tables, samples) => do
    let streamOpt ← parseTrack trakBox i
    match streamOpt with
    | none => trackLoop options rest (streams, tables, samples)
    | some stream =>
      if (stream.type = .video ∧ options.enableVideo) ∨
          (stream.type = .audio ∧ options.enableAudio) then
        let mdiaBox := findBox (trakBox.children.getD []) "mdia"
        let mdiaChildren :=
          match mdiaBox with
          | some b => b.children.getD []
          | none => []
        let minfBox := findBox mdiaChildren "minf"
        let minfChildren :=
          match minfBox with
          | some b => b.children.getD []
          | none => []
        let stblBox := findBox minfChildren "stbl"
        match stblBox with
        | none => trackLoop options rest (streams ++ [stream], tables, samples)
        | some sb => do
          let tableOpt ← parseSampleTable sb
          match tableOpt with
          | none => trackLoop options rest (streams ++ [stream], tables, samples)
          | some table =>
            let streamSamples := buildSampleIndex table stream.id stream.timeScale
            trackLoop options rest
              (streams ++ [stream], tables ++ [(stream.id, table)],
               samples ++ streamSamples)
      else
        trackLoop options rest (streams, tables, samples)

/-- `MOVDemuxer.calculateBitRates` (lines 382–410). -/
def calculateBitRates (streams : List MOVStreamContext)
    (samples : List MOVSample) : List MOVStreamContext :=
  streams.map fun stream =>
    let streamSamples := samples.filter fun s => s.streamId = stream.id
    if streamSamples.length = 0 then stream
    else
      let totalDataSize := (streamSamples.map (·.size)).sum
      let durationInSeconds : ℚ := (stream.duration : ℚ) / (stream.timeScale : ℚ)
      if 0 < durationInSeconds then
        let avgBitRate := jsRound ((totalDataSize : ℚ) * 8 / durationInSeconds)
        { stream with avgBitRate := some avgBitRate, bitRate := some avgBitRate }
      else stream

/-- `MOVDemuxer.init` from the parsed top-level box list onward
(lines 66–148; the raw top-level box parse is the `BoxParser` above). -/
def initFromBoxes (boxes : List MOVBox) (options : MOVDemuxerOptions) :
    Except DemuxError InitResult := do
  let ftyp ←
    match findBox boxes "ftyp" with
    | some ftypBox => parseFTYP ftypBox
    | none => pure none
  let some moovBox := findBox boxes "moov"
    | throw (.jsError "No moov box found")
  let (timeScale, duration) ←
    match findBox (moovBox.children.getD []) "mvhd" with
    | some mvhdBox => do
      match ← parseMVHD mvhdBox with
      | none => throw (.jsError "Invalid mvhd box")
      | some header => pure header
    | none => pure (1000, 0)  -- constructor defaults kept when mvhd is absent
  let trakBoxes := findAllBoxes (moovBox.children.getD []) "trak"
  let (streams, sampleTables, samples) ←
    trackLoop options ((List.range trakBoxes.length).zip trakBoxes) ([], [], [])
  let (mdatOffset, mdatSize) :=
    match findBox boxes "mdat" with
    | some mdatBox => (mdatBox.offset + 8, (mdatBox.size : ℤ) - 8)
    | none => (0, (0 : ℤ))
  let sortedSamples := sortSamples samples
  let streams' := calculateBitRates streams sortedSamples
  return { ftyp := ftyp, streams := streams', sampleTables := sampleTables,
           mdatOffset := mdatOffset, mdatSize := mdatSize,
           timeScale := timeScale, duration := duration,
           samples := sortedSamples }

/-- `MOVDemuxer.getNextSample`: the returned sample (if any) and the new
cursor. -/
def getNextSample (samples : List MOVSample) (cursor : ℕ) :
    Option MOVSample × ℕ :=
  if cursor ≥ samples.length then (none, cursor)
  else (samples[cursor]?, cursor + 1)

/-- `MOVDemuxer.getSampleData`:
`new Uint8Array(buffer, mdatOffset + sample.offset, sample.size)` — a
non-owning view; the constructor throws `RangeError` when the range exceeds
the buffer. -/
def getSampleData (buffer : List ℕ) (mdatOffset : ℕ) (sample : MOVSample) :
    Except DemuxError (List ℕ) :=
  let absoluteOffset := mdatOffset + sample.offset
  if absoluteOffset + sample.size ≤ buffer.length then
    .ok ((buffer.drop absoluteOffset).take sample.size)
  else .error .rangeError

/-- Scan loop of `MOVDemuxer.seek`: `i` is the index of the head of the
remaining list, `best` the best keyframe index so far. -/
def seekLoop (t : ℚ) : List MOVSample → ℕ → ℕ → ℕ
  | [], _, best => best
  | s :: rest, i, best =>
    if t < s.timestamp then best
    else seekLoop t rest (i + 1) (if s.isKeyframe then i else best)

/-- `MOVDemuxer.seek(timestamp)`: the new cursor. -/
def seek (samples : List MOVSample) (t : ℚ) : ℕ :=
  seekLoop t samples 0 0

/-- One entry of `MOVDemuxer.getFrameRateInfo`. -/
structure FrameRateInfo where
  streamId : ℕ
  frameRate : Option ℚ
  avgFrameRate : Option ℚ
  isConstant : Bool
  deriving Repr, DecidableEq

/-- `MOVDemuxer.getFrameRateInfo`: video streams only;
`isConstant` is `stream.frameRate === stream.avgFrameRate`. -/
def getFrameRateInfo (streams : List MOVStreamContext) : List FrameRateInfo :=
  (streams.filter fun s => s.type = .video).map fun s =>
    { streamId := s.id
      frameRate := s.frameRate
      avgFrameRate := s.avgFrameRate
      isConstant := s.frameRate = s.avgFrameRate }

/-! ### Derived definitions used in the statements and invariants -/

/-- A buffer holding a single box that uses the 64-bit extended size:
32-bit size field `1`, type `"test"`, `largesize = 24`, 8 payload bytes. -/
def c5Bytes : List ℕ :=
  [0, 0, 0, 1, 0x74, 0x65, 0x73, 0x74, 0, 0, 0, 0, 0, 0, 0, 24, 1, 2, 3, 4, 5, 6, 7, 8]

/-- Invariant tying the emitted sample list to the loop counters: the list
position of every sample equals the value of `sampleIndex` at its emission
(so keyframe flags follow `keyframeFlag` at the list position), the first
timestamp is `0`, consecutive timestamps accumulate durations exactly, and
the pending `currentTime` continues the last emitted sample. -/
def BuildInv (table : MOVSampleTable) (timeScale : ℕ) (s : BuildState) : Prop :=
  s.samples.length = s.sampleIndex ∧
  (∀ k smp, s.samples[k]? = some smp →
    smp.isKeyframe = keyframeFlag table.syncSamples k) ∧
  (∀ k a b, s.samples[k]? = some a → s.samples[k + 1]? = some b →
    b.timestamp = a.timestamp + a.duration) ∧
  (∀ a, s.samples[0]? = some a → a.timestamp = 0) ∧
  (match s.samples.getLast? with
   | some last =>
       last.timestamp + last.duration =
         ((s.currentTime : ℚ) / (timeScale : ℚ)) * 1000000
   | none => s.currentTime = 0)

/-- Position `j` of `l` holds a keyframe with timestamp at most `t`. -/
def goodAt (l : List MOVSample) (t : ℚ) (j : ℕ) : Prop :=
  ∃ s, l[j]? = some s ∧ s.timestamp ≤ t ∧ s.isKeyframe = true

instance goodAt.instDecidable (l : List MOVSample) (t : ℚ) (j : ℕ) :
    Decidable (goodAt l t j) :=
  match hj : l[j]? with
  | some s =>
    decidable_of_iff (s.timestamp ≤ t ∧ s.isKeyframe = true)
      ⟨fun hh => ⟨s, hj, hh⟩, fun ⟨s', hs', hh⟩ => by
        rw [hj] at hs'
        cases hs'
        exact hh⟩
  | none =>
    isFalse fun ⟨s', hs', _⟩ => by
      rw [hj] at hs'
      cases hs'

/-- The subsequence of samples with timestamp exactly `t`. -/
def filterTs (t : ℚ) (l : List MOVSample) : List MOVSample :=
  l.filter fun s => s.timestamp = t

/-- Big-endian 4-byte encoding of a `u32` value. -/
def encodeU32 (n : ℕ) : List ℕ :=
  [n / 16777216 % 256, n / 65536 % 256, n / 256 % 256, n % 256]

/-- Pure accumulator of the `calculateFrameRate` loop. -/
def fpsFold : List (ℕ × ℕ) → ℕ × ℕ × ℤ × Bool → ℕ × ℕ × ℤ × Bool
  | [], acc => acc
  | (c, d) :: rest, (totalSamples, totalDuration, commonDelta, isConstant) =>
      fpsFold rest (totalSamples + c, totalDuration + c * d,
        if commonDelta = -1 then (d : ℤ) else commonDelta,
        if commonDelta = -1 then isConstant
        else if commonDelta ≠ (d : ℤ) then false else isConstant)

/-- Byte encoding of a list of `stts` entries. -/
def encodeSTTSEntries : List (ℕ × ℕ) → List ℕ
  | [] => []
  | (c, d) :: rest => encodeU32 c ++ (encodeU32 d ++ encodeSTTSEntries rest)

/-- The pure value of `calculateFrameRate` over decoded `stts` entries. -/
def frameRatesOf (entries : List (ℕ × ℕ)) (timeScale : ℕ) : Option (ℚ × ℚ) :=
  if entries.length = 0 then none
  else
    match fpsFold entries (0, 0, -1, true) with
    | (totalSamples, totalDuration, commonDelta, isConstant) =>
      if totalSamples = 0 ∨ totalDuration = 0 then none
      else
        let avgFrameRate : ℚ :=
          ((totalSamples : ℚ) * (timeScale : ℚ)) / (totalDuration : ℚ)
        let frameRate : ℚ :=
          if isConstant ∧ commonDelta > 0 then (timeScale : ℚ) / (commonDelta : ℚ)
          else avgFrameRate
        some (round3 frameRate, round3 avgFrameRate)

/-! ### Claim C5 — box header offset and payload length -/

/-- C5: for a box using the 64-bit extended size (32-bit size field `1`,
`largesize = 24`, box starting at file offset 0) the parser records
`offset = 8` — not the position 0 of the first byte of the size field — and
`parseBox` computes a payload length of `24 − (16 − 8) = 16`, so
`payload.len + header_len = 16 + 16 ≠ 24 = size`: the source evaluates
`size === 1 ? 16 : 8` after `size` has already been overwritten by the
64-bit value, so the header length of an extended box is taken to be 8. -/
theorem c5_extended_size_header_bug :
    readBoxHeader.run ⟨c5Bytes, 0⟩ = .ok (some ⟨"test", 24, 8⟩, ⟨c5Bytes, 16⟩) ∧
    parseBoxDataSize ⟨"test", 24, 8⟩ 16 = 16 ∧
    ¬((16 : ℤ) + 16 = 24) := by
  refine ⟨?_, by decide, by decide⟩
  rfl

/-! ### Claim C7 — failure on a missing `moov` box -/

/-- C7 counterexample: on a buffer whose parsed box tree has no `moov` box,
`init` fails with the plain JavaScript `Error("No moov box found")`, which is
not the typed `MOVError.missingRequiredBox("moov")` the claim names
(`errors.ts` defines that error, but `demuxer.ts` never uses it). -/
theorem c7_counterexample :
    initFromBoxes [] {} = .error (.jsError "No moov box found") ∧
    DemuxError.jsError "No moov box found" ≠
      DemuxError.movError .MISSING_REQUIRED_BOX "Missing required box: moov" := by
  exact ⟨rfl, by decide⟩

/-- C7 (amended): for every parsed box tree without `ftyp` and without `moov`,
`init` fails, and the failure is the untyped `Error` with message
`"No moov box found"` (not the typed `MissingRequiredBox`). -/
theorem c7_missing_moov_generic_error (boxes : List MOVBox)
    (options : MOVDemuxerOptions)
    (hftyp : findBox boxes "ftyp" = none)
    (hmoov : findBox boxes "moov" = none) :
    initFromBoxes boxes options = .error (.jsError "No moov box found") := by
  simp only [initFromBoxes, hftyp, hmoov]
  rfl

/-- Witness for `c7_missing_moov_generic_error` at the empty box tree. -/
theorem c7_missing_moov_generic_error_witness :
    findBox [] "ftyp" = none ∧ findBox [] "moov" = none ∧
    initFromBoxes [] {} = .error (.jsError "No moov box found") :=
  ⟨rfl, rfl, c7_missing_moov_generic_error [] {} rfl rfl⟩

/-! ### Claim C6 — behaviour when `mvhd` is absent or unparseable -/

/-- C6 counterexample: a box tree whose `moov` has no `mvhd` child — `init`
completes successfully with the constructor defaults `timeScale = 1000`,
`duration = 0`, contradicting the claim that it aborts. -/
theorem c6_counterexample :
    initFromBoxes [MOVBox.mk "moov" 8 0 none (some [])] {} =
      .ok { ftyp := none, streams := [], sampleTables := [], mdatOffset := 0,
            mdatSize := 0, timeScale := 1000, duration := 0, samples := [] } := by
  rfl

/-- C6 (amended): `init` aborts only when `mvhd` is present but unparseable
(no payload); when `moov` carries no `mvhd` box at all, `init` completes
successfully, keeping the constructor defaults `timeScale = 1000` and
`duration = 0` (stated here for trees without `ftyp`, `trak` and `mdat`
boxes, which do not influence the movie header handling). -/
theorem c6_mvhd_handling :
    (∀ (boxes : List MOVBox) (options : MOVDemuxerOptions) (moovBox : MOVBox),
      findBox boxes "ftyp" = none →
      findBox boxes "moov" = some moovBox →
      findBox (moovBox.children.getD []) "mvhd" = none →
      findAllBoxes (moovBox.children.getD []) "trak" = [] →
      findBox boxes "mdat" = none →
      initFromBoxes boxes options =
        .ok { ftyp := none, streams := [], sampleTables := [], mdatOffset := 0,
              mdatSize := 0, timeScale := 1000, duration := 0, samples := [] }) ∧
    (∀ (boxes : List MOVBox) (options : MOVDemuxerOptions)
        (moovBox mvhdBox : MOVBox),
      findBox boxes "ftyp" = none →
      findBox boxes "moov" = some moovBox →
      findBox (moovBox.children.getD []) "mvhd" = some mvhdBox →
      mvhdBox.data = none →
      initFromBoxes boxes options = .error (.jsError "Invalid mvhd box")) := by
  constructor
  · intro boxes options moovBox hftyp hmoov hmvhd htrak hmdat
    simp only [initFromBoxes, hftyp, hmoov, hmvhd, htrak, hmdat, trackLoop,
      sortSamples, List.insertionSort, calculateBitRates]
    rfl
  · intro boxes options moovBox mvhdBox hftyp hmoov hmvhd hdata
    simp only [initFromBoxes, hftyp, hmoov, hmvhd, parseMVHD, hdata]
    rfl

/-- Witness for `c6_mvhd_handling` at concrete trees: a `moov` without
`mvhd` (first part) and a `moov` whose `mvhd` has no payload (second part). -/
theorem c6_mvhd_handling_witness :
    initFromBoxes [MOVBox.mk "moov" 8 0 none (some [])] {} =
      .ok { ftyp := none, streams := [], sampleTables := [], mdatOffset := 0,
            mdatSize := 0, timeScale := 1000, duration := 0, samples := [] } ∧
    initFromBoxes
        [MOVBox.mk "moov" 16 0 none (some [MOVBox.mk "mvhd" 8 8 none none])] {} =
      .error (.jsError "Invalid mvhd box") :=
  ⟨c6_mvhd_handling.1 [MOVBox.mk "moov" 8 0 none (some [])] {}
      (MOVBox.mk "moov" 8 0 none (some [])) rfl rfl rfl rfl rfl,
   c6_mvhd_handling.2
      [MOVBox.mk "moov" 16 0 none (some [MOVBox.mk "mvhd" 8 8 none none])] {}
      (MOVBox.mk "moov" 16 0 none (some [MOVBox.mk "mvhd" 8 8 none none]))
      (MOVBox.mk "mvhd" 8 8 none none) rfl rfl rfl rfl⟩

/-! ### Claim C1 — `sample_data` slicing and failure mode -/

/-- C1 counterexample: with `mdatOffset = 2` and a sample at `offset = 1`,
`size = 2`, `getSampleData` returns bytes `[13, 14]` — the slice at
`mdatOffset + sample.offset = 3` — and not `buffer[1 .. 3] = [11, 12]` as the
claim states; and for a sample whose range is out of bounds the call fails
with the typed-array `RangeError`, not with `CorruptData`. -/
theorem c1_counterexample :
    getSampleData [10, 11, 12, 13, 14, 15] 2 ⟨1, 2, 0, 0, true, 0⟩ =
      .ok [13, 14] ∧
    ¬(getSampleData [10, 11, 12, 13, 14, 15] 2 ⟨1, 2, 0, 0, true, 0⟩ =
      .ok (([10, 11, 12, 13, 14, 15].drop 1).take 2)) ∧
    getSampleData [10, 11, 12, 13, 14, 15] 2 ⟨10, 2, 0, 0, true, 0⟩ =
      .error .rangeError ∧
    DemuxError.rangeError ≠
      DemuxError.movError .CORRUPT_DATA "Corrupt or invalid data detected" := by
  exact ⟨rfl, by decide, rfl, by decide⟩

/-- C1 (amended): `sample_data` returns the non-owning view
`buffer[mdat_offset + sample.offset .. +sample.size]`; when that range
exceeds the buffer bounds the `Uint8Array` construction throws a native
`RangeError` (no `CorruptData` error is raised). -/
theorem c1_sample_data_slice (buffer : List ℕ) (mdatOffset : ℕ) (s : MOVSample) :
    (mdatOffset + s.offset + s.size ≤ buffer.length →
      ∃ bytes, getSampleData buffer mdatOffset s = .ok bytes ∧
        bytes.length = s.size ∧
        ∀ i < s.size, bytes[i]? = buffer[mdatOffset + s.offset + i]?) ∧
    (buffer.length < mdatOffset + s.offset + s.size →
      getSampleData buffer mdatOffset s = .error .rangeError) := by
  constructor
  · intro hle
    refine ⟨(buffer.drop (mdatOffset + s.offset)).take s.size, ?_, ?_, ?_⟩
    · simp only [getSampleData]
      rw [if_pos hle]
    · rw [List.length_take, List.length_drop]
      omega
    · intro i hi
      rw [List.getElem?_take, if_pos hi, List.getElem?_drop]
  · intro hlt
    simp only [getSampleData]
    rw [if_neg (by omega)]

/-- Witness for `c1_sample_data_slice`: both branches at concrete inputs. -/
theorem c1_sample_data_slice_witness :
    (2 + 1 + 2 ≤ [10, 11, 12, 13, 14, 15].length ∧
      ∃ bytes,
        getSampleData [10, 11, 12, 13, 14, 15] 2 ⟨1, 2, 0, 0, true, 0⟩ =
          .ok bytes ∧
        bytes.length = 2 ∧
        ∀ i < 2, bytes[i]? = [10, 11, 12, 13, 14, 15][2 + 1 + i]?) ∧
    ([10, 11, 12, 13, 14, 15].length < 2 + 10 + 2 ∧
      getSampleData [10, 11, 12, 13, 14, 15] 2 ⟨10, 2, 0, 0, true, 0⟩ =
        .error .rangeError) :=
  ⟨⟨by decide,
    (c1_sample_data_slice [10, 11, 12, 13, 14, 15] 2 ⟨1, 2, 0, 0, true, 0⟩).1
      (by decide)⟩,
   ⟨by decide,
    (c1_sample_data_slice [10, 11, 12, 13, 14, 15] 2 ⟨10, 2, 0, 0, true, 0⟩).2
      (by decide)⟩⟩

/-! ### Invariant of the `buildSampleIndex` loops (used by C3, C8, C10) -/

theorem stepTime_samples (tts : List STTSEntry) (s : BuildState) :
    (stepTime tts s).samples = s.samples := by
  simp only [stepTime]
  split <;> rfl

theorem stepTime_sampleIndex (tts : List STTSEntry) (s : BuildState) :
    (stepTime tts s).sampleIndex = s.sampleIndex := by
  simp only [stepTime]
  split <;> rfl

theorem stepTime_currentTime (tts : List STTSEntry) (s : BuildState) :
    (stepTime tts s).currentTime = s.currentTime + s.currentDelta := by
  simp only [stepTime]
  split <;> rfl

theorem buildInv_push (table : MOVSampleTable) (timeScale sid off sz : ℕ)
    (s : BuildState) (h : BuildInv table timeScale s) :
    BuildInv table timeScale (stepTime table.timeToSample
      { s with
        sampleIndex := s.sampleIndex + 1
        samples := s.samples ++
          [⟨off, sz, ((s.currentTime : ℚ) / (timeScale : ℚ)) * 1000000,
            ((s.currentDelta : ℚ) / (timeScale : ℚ)) * 1000000,
            keyframeFlag table.syncSamples s.sampleIndex, sid⟩] }) := by
  obtain ⟨hlen, hkf, hadj, hfirst, hlast⟩ := h
  set smp : MOVSample :=
    ⟨off, sz, ((s.currentTime : ℚ) / (timeScale : ℚ)) * 1000000,
      ((s.currentDelta : ℚ) / (timeScale : ℚ)) * 1000000,
      keyframeFlag table.syncSamples s.sampleIndex, sid⟩ with hsmp
  refine ⟨?_, ?_, ?_, ?_, ?_⟩
  · rw [stepTime_samples, stepTime_sampleIndex]
    simp only [List.length_append, List.length_cons, List.length_nil]
    omega
  · rw [stepTime_samples]
    intro k x hx
    rcases lt_trichotomy k s.samples.length with hk | hk | hk
    · rw [List.getElem?_append_left hk] at hx
      exact hkf k x hx
    · subst hk
      rw [List.getElem?_concat_length] at hx
      cases hx
      simpa [hsmp] using congrArg (keyframeFlag table.syncSamples) hlen.symm
    · rw [List.getElem?_eq_none (by simp; omega)] at hx
      cases hx
  · rw [stepTime_samples]
    intro k a b ha hb
    rcases lt_trichotomy (k + 1) s.samples.length with hk | hk | hk
    · rw [List.getElem?_append_left hk] at hb
      rw [List.getElem?_append_left (by omega)] at ha
      exact hadj k a b ha hb
    · have hk' : k < s.samples.length := by omega
      rw [List.getElem?_append_left hk'] at ha
      rw [hk, List.getElem?_concat_length] at hb
      cases hb
      have hlegetlast : s.samples.getLast? = some a := by
        rw [List.getLast?_eq_getElem?]
        rw [← ha]
        congr 1
        omega
      rw [hlegetlast] at hlast
      simpa [hsmp] using hlast.symm
    · rw [List.getElem?_eq_none (by simp; omega)] at hb
      cases hb
  · rw [stepTime_samples]
    intro a ha
    rcases Nat.eq_zero_or_pos s.samples.length with hz | hpos
    · have hnil : s.samples = [] := List.length_eq_zero.mp hz
      rw [hnil] at ha hlast
      have hct : s.currentTime = 0 := by simpa using hlast
      have haeq : smp = a := by simpa using ha
      subst haeq
      simp [hsmp, hct]
    · rw [List.getElem?_append_left hpos] at ha
      exact hfirst a ha
  · rw [stepTime_samples, stepTime_currentTime]
    have hgl : (s.samples ++ [smp]).getLast? = some smp := by
      simp [List.getLast?_append]
    rw [hgl]
    simp only [hsmp]
    push_cast
    rw [add_div, add_mul]

theorem buildInv_emitChunk (table : MOVSampleTable) (sid timeScale chunkOffset : ℕ) :
    ∀ (n offInChunk : ℕ) (s : BuildState), BuildInv table timeScale s →
      BuildInv table timeScale
        (emitChunk table sid timeScale chunkOffset n offInChunk s)
  | 0, _, _, h => h
  | n + 1, off, s, h => by
    rw [emitChunk]
    split
    · exact h
    · exact buildInv_emitChunk table sid timeScale chunkOffset n _ _
        (buildInv_push table timeScale sid _ _ s h)

theorem buildInv_buildLoop (table : MOVSampleTable) (sid timeScale : ℕ)
    (chunkToSamples : List ℕ) :
    ∀ (cs : List ℕ) (s : BuildState), BuildInv table timeScale s →
      BuildInv table timeScale
        (buildLoop table sid timeScale chunkToSamples cs s)
  | [], _, h => h
  | _ :: rest, s, h =>
    buildInv_buildLoop table sid timeScale chunkToSamples rest _
      (buildInv_emitChunk table sid timeScale _ _ _ s h)

/-- The flat sample index satisfies the invariant's list part. -/
theorem buildSampleIndex_inv (table : MOVSampleTable) (sid timeScale : ℕ) :
    (∀ k smp, (buildSampleIndex table sid timeScale)[k]? = some smp →
      smp.isKeyframe = keyframeFlag table.syncSamples k) ∧
    (∀ k a b, (buildSampleIndex table sid timeScale)[k]? = some a →
      (buildSampleIndex table sid timeScale)[k + 1]? = some b →
      b.timestamp = a.timestamp + a.duration) ∧
    (∀ a, (buildSampleIndex table sid timeScale)[0]? = some a →
      a.timestamp = 0) := by
  by_cases hempty : table.sampleSizes.length = 0
  · simp [buildSampleIndex, hempty]
  · have h0 : BuildInv table timeScale
        { sampleIndex := 0, currentTime := 0, timeEntryIndex := 0,
          timeEntryRemaining := (((table.timeToSample[0]?).map (·.count)).getD 0 : ℕ),
          currentDelta := ((table.timeToSample[0]?).map (·.delta)).getD 0,
          samples := [] } := by
      refine ⟨rfl, ?_, ?_, ?_, rfl⟩ <;> intro k <;> simp
    have hfin := buildInv_buildLoop table sid timeScale
      (buildChunkToSampleMapping table) (List.range table.chunkOffsets.length) _ h0
    obtain ⟨_, hkf, hadj, hfirst, _⟩ := hfin
    have hout : buildSampleIndex table sid timeScale =
        (buildLoop table sid timeScale (buildChunkToSampleMapping table)
          (List.range table.chunkOffsets.length)
          { sampleIndex := 0, currentTime := 0, timeEntryIndex := 0,
            timeEntryRemaining := (((table.timeToSample[0]?).map (·.count)).getD 0 : ℕ),
            currentDelta := ((table.timeToSample[0]?).map (·.delta)).getD 0,
            samples := [] }).samples := by
      rw [buildSampleIndex, if_neg hempty]
    rw [hout]
    exact ⟨hkf, hadj, hfirst⟩

/-! ### Claim C8 — keyframe flags from `stss` -/

/-- C8: a sample at 0-based position `k` of a track's sample index is marked
a keyframe exactly when the sample table has no `stss` box, or when its
1-based index `k + 1` is listed in the `stss` entries. -/
theorem c8_keyframe_from_stss (table : MOVSampleTable) (sid timeScale k : ℕ)
    (smp : MOVSample)
    (h : (buildSampleIndex table sid timeScale)[k]? = some smp) :
    smp.isKeyframe =
      (match table.syncSamples with
       | none => true
       | some entries => entries.contains (k + 1)) := by
  have hflag := (buildSampleIndex_inv table sid timeScale).1 k smp h
  rw [hflag]
  cases table.syncSamples with
  | none => rfl
  | some entries => simp [keyframeFlag]

/-- Witness for `c8_keyframe_from_stss`: a two-sample track whose `stss`
lists only sample 2 — sample at position 1 is a keyframe, via the theorem. -/
theorem c8_keyframe_from_stss_witness :
    (buildSampleIndex ⟨[10, 20], [100], [⟨1, 2, 1⟩], [⟨2, 1⟩], some [2]⟩ 7 128)[1]? =
      some ⟨110, 20, 15625 / 2, 15625 / 2, true, 7⟩ ∧
    (true : Bool) = ([2].contains (1 + 1)) :=
  ⟨by with_unfolding_all rfl,
   c8_keyframe_from_stss ⟨[10, 20], [100], [⟨1, 2, 1⟩], [⟨2, 1⟩], some [2]⟩ 7 128 1
     ⟨110, 20, 15625 / 2, 15625 / 2, true, 7⟩ (by with_unfolding_all rfl)⟩

/-! ### Claim C3 — microsecond conversion is unrounded -/

/-- C3 counterexample: for a track with `time_scale = 128` and `stts` deltas
of one tick, the second sample's emitted timestamp is the non-integral
rational `15625/2 = 7812.5` µs, not `round(1 · 1_000_000 / 128) = 7813`:
`buildSampleIndex` computes `(currentTime / timeScale) * 1_000_000` with no
rounding.  (All values involved are exactly representable dyadic doubles, so
the JavaScript evaluation is exact as well.) -/
theorem c3_counterexample :
    ((buildSampleIndex ⟨[10, 20], [100], [⟨1, 2, 1⟩], [⟨2, 1⟩], none⟩ 7 128).map
        (·.timestamp)) = [0, 15625 / 2] ∧
    (jsRound ((1 * 1000000 : ℚ) / 128) : ℚ) = 7813 ∧
    ((15625 : ℚ) / 2) ≠ 7813 := by
  refine ⟨by with_unfolding_all rfl, by with_unfolding_all rfl,
    by with_unfolding_all decide⟩

/-- C3 (amended): timestamps are produced by exact division with **no**
rounding to integer microseconds — the first emitted timestamp is `0` and
every later timestamp is exactly the previous timestamp plus the previous
duration, where durations are `delta · 1_000_000 / time_scale` as exact
rationals (hence possibly non-integral, as the counterexample shows).  The
hypothesis `0 < timeScale` restricts the statement to the domain where the
exact-rational model agrees with the JavaScript float semantics (division by
zero would produce `NaN` there). -/
theorem c3_timestamps_exact_accumulation (table : MOVSampleTable)
    (sid timeScale : ℕ) (_hts : 0 < timeScale) :
    (∀ a, (buildSampleIndex table sid timeScale)[0]? = some a →
      a.timestamp = 0) ∧
    (∀ k a b, (buildSampleIndex table sid timeScale)[k]? = some a →
      (buildSampleIndex table sid timeScale)[k + 1]? = some b →
      b.timestamp = a.timestamp + a.duration) :=
  ⟨(buildSampleIndex_inv table sid timeScale).2.2,
   (buildSampleIndex_inv table sid timeScale).2.1⟩

/-- Witness for `c3_timestamps_exact_accumulation` on the counterexample
track: the sample at position 1 has `timestamp = 0 + 7812.5`. -/
theorem c3_timestamps_exact_accumulation_witness :
    (0 < 128) ∧
    ((15625 : ℚ) / 2) = 0 + 15625 / 2 :=
  ⟨by decide,
   (c3_timestamps_exact_accumulation
      ⟨[10, 20], [100], [⟨1, 2, 1⟩], [⟨2, 1⟩], none⟩ 7 128 (by decide)).2 0
      ⟨100, 10, 0, 15625 / 2, true, 7⟩ ⟨110, 20, 15625 / 2, 15625 / 2, true, 7⟩
      (by with_unfolding_all rfl) (by with_unfolding_all rfl)⟩

/-! ### Claim C10 — empty `stss` means no keyframes, seek pins to 0 -/

theorem seekLoop_of_no_keyframe (t : ℚ) :
    ∀ (l : List MOVSample) (i b : ℕ),
      (∀ s ∈ l, ¬(s.timestamp ≤ t ∧ s.isKeyframe = true)) →
      seekLoop t l i b = b
  | [], _, _, _ => rfl
  | s :: rest, i, b, h => by
    rw [seekLoop]
    by_cases hts : t < s.timestamp
    · rw [if_pos hts]
    · rw [if_neg hts]
      have hkf : s.isKeyframe = false := by
        rcases Bool.eq_false_or_eq_true s.isKeyframe with htr | hf
        · exact absurd ⟨le_of_not_lt hts, htr⟩ (h s (List.mem_cons_self s rest))
        · exact hf
      rw [hkf]
      simpa using seekLoop_of_no_keyframe t rest (i + 1) b
        (fun x hx => h x (List.mem_cons_of_mem s hx))

/-- C10: when an `stss` box is present but lists zero sync samples
(`syncSamples = some []`), every emitted sample of the track has
`keyframe = false` — in contrast to the absent-`stss` case — and therefore
`seek` on the (sorted) sample list of such a file always returns cursor 0. -/
theorem c10_empty_stss_no_keyframes (table : MOVSampleTable)
    (sid timeScale : ℕ) (h : table.syncSamples = some []) :
    (∀ smp ∈ buildSampleIndex table sid timeScale, smp.isKeyframe = false) ∧
    (∀ t : ℚ, seek (sortSamples (buildSampleIndex table sid timeScale)) t = 0) := by
  have hall : ∀ smp ∈ buildSampleIndex table sid timeScale,
      smp.isKeyframe = false := by
    intro smp hmem
    obtain ⟨k, hk⟩ := List.mem_iff_getElem?.mp hmem
    have := (buildSampleIndex_inv table sid timeScale).1 k smp hk
    rw [this, h]
    simp [keyframeFlag]
  refine ⟨hall, fun t => ?_⟩
  apply seekLoop_of_no_keyframe
  intro s hs
  have hmem : s ∈ buildSampleIndex table sid timeScale := by
    simpa [sortSamples] using (List.mem_insertionSort sampleLE).mp hs
  rw [hall s hmem]
  simp

/-- Witness for `c10_empty_stss_no_keyframes` on a concrete two-sample track
with a present-but-empty `stss`. -/
theorem c10_empty_stss_no_keyframes_witness :
    (MOVSampleTable.syncSamples ⟨[10, 20], [100], [⟨1, 2, 1⟩], [⟨2, 1⟩], some []⟩ =
      some []) ∧
    seek (sortSamples
      (buildSampleIndex ⟨[10, 20], [100], [⟨1, 2, 1⟩], [⟨2, 1⟩], some []⟩ 3 128))
      100 = 0 :=
  ⟨rfl,
   (c10_empty_stss_no_keyframes ⟨[10, 20], [100], [⟨1, 2, 1⟩], [⟨2, 1⟩], some []⟩
      3 128 rfl).2 100⟩

/-! ### Claim C2 — seek lands on the last keyframe at or before the target -/

theorem goodAt_cons_zero (s : MOVSample) (l : List MOVSample) (t : ℚ) :
    goodAt (s :: l) t 0 ↔ s.timestamp ≤ t ∧ s.isKeyframe = true := by
  simp [goodAt]

theorem goodAt_cons_succ (s : MOVSample) (l : List MOVSample) (t : ℚ) (j : ℕ) :
    goodAt (s :: l) t (j + 1) ↔ goodAt l t j := by
  simp [goodAt]

theorem goodAt_lt_length {l : List MOVSample} {t : ℚ} {j : ℕ}
    (h : goodAt l t j) : j < l.length := by
  obtain ⟨s, hs, -, -⟩ := h
  exact List.getElem?_eq_some.mp hs |>.1

theorem seekLoop_eq_of_max (t : ℚ) :
    ∀ (l : List MOVSample), l.Pairwise sampleLE →
      ∀ (i b j : ℕ), goodAt l t j → (∀ j', goodAt l t j' → j' ≤ j) →
        seekLoop t l i b = i + j := by
  intro l
  induction l with
  | nil =>
    intro _ i b j hj _
    exact absurd (goodAt_lt_length hj) (by simp)
  | cons s rest ih =>
    intro hsort i b j hj hmax
    have hhead : ∀ x ∈ rest, sampleLE s x := (List.pairwise_cons.mp hsort).1
    have hrest : rest.Pairwise sampleLE := (List.pairwise_cons.mp hsort).2
    rw [seekLoop]
    by_cases hts : t < s.timestamp
    · exfalso
      obtain ⟨x, hx, hxt, -⟩ := hj
      cases j with
      | zero =>
        rw [List.getElem?_cons_zero] at hx
        cases hx
        exact absurd hxt (not_le_of_lt hts)
      | succ j' =>
        rw [List.getElem?_cons_succ] at hx
        have hxmem : x ∈ rest := List.mem_iff_getElem?.mpr ⟨j', hx⟩
        exact absurd (le_trans (hhead x hxmem) hxt) (not_le_of_lt hts)
    · rw [if_neg hts]
      cases hkf : s.isKeyframe with
      | true =>
        rw [if_pos rfl]
        by_cases hrg : ∃ j', goodAt rest t j'
        · obtain ⟨j0, hj0⟩ := hrg
          have hj1 : goodAt (s :: rest) t (j0 + 1) :=
            (goodAt_cons_succ s rest t j0).mpr hj0
          have hjpos : 1 ≤ j := le_trans (Nat.succ_le_succ (Nat.zero_le _)) (hmax _ hj1)
          obtain ⟨jr, rfl⟩ : ∃ jr, j = jr + 1 :=
            ⟨j - 1, by omega⟩
          have hjr : goodAt rest t jr := (goodAt_cons_succ s rest t jr).mp hj
          have hjrmax : ∀ j', goodAt rest t j' → j' ≤ jr := fun j' hj' =>
            Nat.lt_succ_iff.mp
              (Nat.lt_of_lt_of_le (Nat.lt_succ_self j')
                (hmax _ ((goodAt_cons_succ s rest t j').mpr hj')))
          rw [ih hrest (i + 1) i jr hjr hjrmax]
          omega
        · push_neg at hrg
          have hnone : ∀ x ∈ rest, ¬(x.timestamp ≤ t ∧ x.isKeyframe = true) := by
            intro x hx hcontra
            obtain ⟨k, hk⟩ := List.mem_iff_getElem?.mp hx
            exact hrg k ⟨x, hk, hcontra⟩
          rw [seekLoop_of_no_keyframe t rest (i + 1) i hnone]
          have hj0 : j = 0 := by
            cases j with
            | zero => rfl
            | succ j' =>
              exact absurd ((goodAt_cons_succ s rest t j').mp hj) (hrg j')
          omega
      | false =>
        rw [if_neg (by simp)]
        cases j with
        | zero =>
          obtain ⟨x, hx, -, hxkf⟩ := hj
          rw [List.getElem?_cons_zero] at hx
          cases hx
          rw [hkf] at hxkf
          cases hxkf
        | succ jr =>
          have hjr : goodAt rest t jr := (goodAt_cons_succ s rest t jr).mp hj
          have hjrmax : ∀ j', goodAt rest t j' → j' ≤ jr := fun j' hj' =>
            Nat.lt_succ_iff.mp
              (Nat.lt_of_lt_of_le (Nat.lt_succ_self j')
                (hmax _ ((goodAt_cons_succ s rest t j').mpr hj')))
          rw [ih hrest (i + 1) b jr hjr hjrmax]
          omega

/-- C2: on the (sorted) sample list of an initialised demuxer, `seek(t)` sets
the cursor to the greatest index `i` with `samples[i].timestamp ≤ t` and
`samples[i].keyframe`; when no such index exists the cursor becomes `0`
(also on an empty list or an out-of-range target — `seek` is total); and on a
non-empty list the next `next_sample()` call returns exactly `samples[cursor]`. -/
theorem c2_seek_spec (samples : List MOVSample) (t : ℚ)
    (hsort : samples.Pairwise sampleLE) :
    ((∃ j, goodAt samples t j) →
      goodAt samples t (seek samples t) ∧
        ∀ j, goodAt samples t j → j ≤ seek samples t) ∧
    ((¬∃ j, goodAt samples t j) → seek samples t = 0) ∧
    (samples ≠ [] →
      (getNextSample samples (seek samples t)).1 = samples[seek samples t]? ∧
      (samples[seek samples t]?).isSome = true) := by
  have hseek : ∀ (hex : ∃ j, goodAt samples t j),
      goodAt samples t (seek samples t) ∧
        ∀ j, goodAt samples t j → j ≤ seek samples t := by
    intro hex
    obtain ⟨j0, hj0⟩ := hex
    set J := Nat.findGreatest (goodAt samples t) samples.length with hJ
    have hgJ : goodAt samples t J :=
      Nat.findGreatest_spec (le_of_lt (goodAt_lt_length hj0)) hj0
    have hmaxJ : ∀ j', goodAt samples t j' → j' ≤ J := fun j' hj' =>
      Nat.le_findGreatest (le_of_lt (goodAt_lt_length hj')) hj'
    have hseekJ : seek samples t = J := by
      rw [seek, seekLoop_eq_of_max t samples hsort 0 0 J hgJ hmaxJ]
      omega
    rw [hseekJ]
    exact ⟨hgJ, hmaxJ⟩
  refine ⟨hseek, ?_, ?_⟩
  · intro hnex
    have hnone : ∀ x ∈ samples, ¬(x.timestamp ≤ t ∧ x.isKeyframe = true) := by
      intro x hx hcontra
      obtain ⟨k, hk⟩ := List.mem_iff_getElem?.mp hx
      exact hnex ⟨k, x, hk, hcontra⟩
    exact seekLoop_of_no_keyframe t samples 0 0 hnone
  · intro hne
    have hpos : 0 < samples.length := List.length_pos.mpr hne
    have hlt : seek samples t < samples.length := by
      by_cases hex : ∃ j, goodAt samples t j
      · exact goodAt_lt_length (hseek hex).1
      · have h0 : seek samples t = 0 := by
          apply seekLoop_of_no_keyframe
          intro x hx hcontra
          obtain ⟨k, hk⟩ := List.mem_iff_getElem?.mp hx
          exact hex ⟨k, x, hk, hcontra⟩
        rw [h0]
        exact hpos
    constructor
    · rw [getNextSample, if_neg (not_le.mpr hlt)]
    · rw [List.getElem?_eq_getElem hlt]
      rfl

/-- Witness for `c2_seek_spec`: a four-sample sorted list with keyframes at
timestamps 0 and 20; seeking to 25 lands on index 2 (the keyframe at 20). -/
theorem c2_seek_spec_witness :
    ([⟨0, 1, 0, 0, true, 0⟩, ⟨0, 1, 10, 0, false, 0⟩, ⟨0, 1, 20, 0, true, 0⟩,
        ⟨0, 1, 30, 0, false, 0⟩] : List MOVSample).Pairwise sampleLE ∧
    seek [⟨0, 1, 0, 0, true, 0⟩, ⟨0, 1, 10, 0, false, 0⟩, ⟨0, 1, 20, 0, true, 0⟩,
        ⟨0, 1, 30, 0, false, 0⟩] 25 = 2 ∧
    goodAt [⟨0, 1, 0, 0, true, 0⟩, ⟨0, 1, 10, 0, false, 0⟩, ⟨0, 1, 20, 0, true, 0⟩,
        ⟨0, 1, 30, 0, false, 0⟩] 25
      (seek [⟨0, 1, 0, 0, true, 0⟩, ⟨0, 1, 10, 0, false, 0⟩,
        ⟨0, 1, 20, 0, true, 0⟩, ⟨0, 1, 30, 0, false, 0⟩] 25) :=
  ⟨by with_unfolding_all decide, by with_unfolding_all rfl,
   ((c2_seek_spec
      [⟨0, 1, 0, 0, true, 0⟩, ⟨0, 1, 10, 0, false, 0⟩, ⟨0, 1, 20, 0, true, 0⟩,
        ⟨0, 1, 30, 0, false, 0⟩] 25 (by with_unfolding_all decide)).1
      ⟨2, by with_unfolding_all decide⟩).1⟩

/-! ### Claim C4 — stable sort by timestamp, ties in stream order -/

theorem filterTs_orderedInsert (t : ℚ) (a : MOVSample) :
    ∀ l : List MOVSample,
      filterTs t (List.orderedInsert sampleLE a l) =
        if a.timestamp = t then a :: filterTs t l else filterTs t l
  | [] => by
    by_cases h : a.timestamp = t <;> simp [filterTs, List.orderedInsert, h]
  | b :: l => by
    rw [List.orderedInsert]
    by_cases hab : sampleLE a b
    · rw [if_pos hab]
      by_cases h : a.timestamp = t <;> simp [filterTs, List.filter_cons, h]
    · rw [if_neg hab]
      have hba : b.timestamp < a.timestamp := lt_of_not_le hab
      by_cases h : a.timestamp = t
      · have hbt : ¬(b.timestamp = t) := by
          rw [← h]
          exact ne_of_lt hba
        rw [if_pos h]
        simp only [filterTs, List.filter_cons, decide_eq_true_eq, if_neg hbt, hbt]
        have := filterTs_orderedInsert t a l
        rw [if_pos h] at this
        simpa [filterTs, hbt] using this
      · rw [if_neg h]
        have := filterTs_orderedInsert t a l
        rw [if_neg h] at this
        by_cases hbt : b.timestamp = t <;>
          simp [filterTs, List.filter_cons, hbt] <;>
          simpa [filterTs, hbt] using this

theorem filterTs_sortSamples (t : ℚ) :
    ∀ l : List MOVSample, filterTs t (sortSamples l) = filterTs t l
  | [] => rfl
  | a :: l => by
    have ih := filterTs_sortSamples t l
    have hstep : sortSamples (a :: l) =
        List.orderedInsert sampleLE a (sortSamples l) := rfl
    rw [hstep, filterTs_orderedInsert]
    by_cases h : a.timestamp = t
    · rw [if_pos h, ih]
      simp [filterTs, List.filter_cons, h]
    · rw [if_neg h, ih]
      simp [filterTs, List.filter_cons, h]

/-- C4: merging the per-track sample lists (tagged with ascending stream ids)
and sorting with `init`'s stable sort yields a list that is
(1) non-decreasing in `timestamp`,
(2) within each timestamp exactly the original concatenation order — i.e. the
sort is stable — and
(3) within each timestamp non-decreasing in `streamId` (stream id ascending,
then original per-track order). -/
theorem c4_stable_sort_order (tracks : List (ℕ × List MOVSample))
    (hmono : tracks.Pairwise fun p q => p.1 ≤ q.1)
    (htag : ∀ p ∈ tracks, ∀ s ∈ p.2, s.streamId = p.1) :
    (sortSamples ((tracks.map Prod.snd).flatten)).Pairwise sampleLE ∧
    (∀ t : ℚ, filterTs t (sortSamples ((tracks.map Prod.snd).flatten)) =
      filterTs t ((tracks.map Prod.snd).flatten)) ∧
    (∀ t : ℚ, (filterTs t (sortSamples ((tracks.map Prod.snd).flatten))).Pairwise
      fun a b => a.streamId ≤ b.streamId) := by
  refine ⟨List.sorted_insertionSort sampleLE _, fun t => filterTs_sortSamples t _,
    fun t => ?_⟩
  rw [filterTs_sortSamples t _]
  have hflat : ((tracks.map Prod.snd).flatten).Pairwise
      fun a b => a.streamId ≤ b.streamId := by
    rw [List.pairwise_flatten]
    refine ⟨?_, ?_⟩
    · intro l hl
      rw [List.mem_map] at hl
      obtain ⟨p, hp, rfl⟩ := hl
      apply List.pairwise_of_forall_mem_list
      intro a ha b hb
      rw [htag p hp a ha, htag p hp b hb]
    · rw [List.pairwise_map]
      refine hmono.imp_of_mem ?_
      intro p q hp hq hpq a ha b hb
      rw [htag p hp a ha, htag q hq b hb]
      exact hpq
  exact hflat.sublist (List.filter_sublist _)

/-- Witness for `c4_stable_sort_order`: two tracks with a timestamp tie
across tracks; the tie keeps stream 0 before stream 1. -/
theorem c4_stable_sort_order_witness :
    ([(0, [⟨0, 1, 5, 0, true, 0⟩]), (1, [⟨1, 1, 3, 0, true, 1⟩, ⟨2, 1, 5, 0, true, 1⟩])] :
        List (ℕ × List MOVSample)).Pairwise (fun p q => p.1 ≤ q.1) ∧
    (∀ p ∈ ([(0, [⟨0, 1, 5, 0, true, 0⟩]),
        (1, [⟨1, 1, 3, 0, true, 1⟩, ⟨2, 1, 5, 0, true, 1⟩])] :
        List (ℕ × List MOVSample)), ∀ s ∈ p.2, s.streamId = p.1) ∧
    filterTs 5 (sortSamples ((([(0, [⟨0, 1, 5, 0, true, 0⟩]),
        (1, [⟨1, 1, 3, 0, true, 1⟩, ⟨2, 1, 5, 0, true, 1⟩])] :
        List (ℕ × List MOVSample)).map Prod.snd).flatten)) =
      filterTs 5 ((([(0, [⟨0, 1, 5, 0, true, 0⟩]),
        (1, [⟨1, 1, 3, 0, true, 1⟩, ⟨2, 1, 5, 0, true, 1⟩])] :
        List (ℕ × List MOVSample)).map Prod.snd).flatten) :=
  ⟨by with_unfolding_all decide, by with_unfolding_all decide,
   (c4_stable_sort_order
      [(0, [⟨0, 1, 5, 0, true, 0⟩]), (1, [⟨1, 1, 3, 0, true, 1⟩, ⟨2, 1, 5, 0, true, 1⟩])]
      (by with_unfolding_all decide) (by with_unfolding_all decide)).2.1 5⟩


/-! ### Claim C9 — frame-rate derivation from `stts` -/

theorem readUint32_of_drop (data : List ℕ) (pos n : ℕ) (rest : List ℕ)
    (hn : n < 4294967296)
    (h : data.drop pos = encodeU32 n ++ rest) :
    readUint32 ⟨data, pos⟩ = .ok (n, ⟨data, pos + 4⟩) := by
  have hpos : pos ≤ data.length := by
    rcases le_or_lt pos data.length with h' | h'
    · exact h'
    · exfalso
      rw [List.drop_eq_nil_of_le (le_of_lt h')] at h
      simp [encodeU32] at h
  have hlen : data.length - pos = 4 + rest.length := by
    have := congrArg List.length h
    simp [encodeU32] at this
    omega
  have hle : pos + 4 ≤ data.length := by omega
  have hbyte : ∀ i, i < 4 → data[pos + i]? = (encodeU32 n ++ rest)[i]? := by
    intro i hi
    rw [← h, List.getElem?_drop]
  have hb0 : data.getD (pos + 0) 0 = n / 16777216 % 256 := by
    rw [List.getD_eq_getElem?_getD, hbyte 0 (by omega)]
    simp [encodeU32]
  have hb1 : data.getD (pos + 1) 0 = n / 65536 % 256 := by
    rw [List.getD_eq_getElem?_getD, hbyte 1 (by omega)]
    simp [encodeU32]
  have hb2 : data.getD (pos + 2) 0 = n / 256 % 256 := by
    rw [List.getD_eq_getElem?_getD, hbyte 2 (by omega)]
    simp [encodeU32]
  have hb3 : data.getD (pos + 3) 0 = n % 256 := by
    rw [List.getD_eq_getElem?_getD, hbyte 3 (by omega)]
    simp [encodeU32]
  rw [readUint32]
  simp only
  rw [if_pos hle]
  have hb0' : data.getD pos 0 = n / 16777216 % 256 := by simpa using hb0
  rw [hb0', hb1, hb2, hb3]
  congr 1
  congr 1
  omega

theorem fpsLoop_encode :
    ∀ (entries : List (ℕ × ℕ)) (acc : ℕ × ℕ × ℤ × Bool) (data : List ℕ)
      (pos : ℕ) (rest : List ℕ),
      (∀ p ∈ entries, p.1 < 4294967296 ∧ p.2 < 4294967296) →
      data.drop pos = encodeSTTSEntries entries ++ rest →
      fpsLoop entries.length acc ⟨data, pos⟩ =
        .ok (fpsFold entries acc, ⟨data, pos + 8 * entries.length⟩)
  | [], acc, data, pos, rest, _, _ => by
    simp [fpsLoop, fpsFold, pure, StateT.pure, Except.pure]
  | (c, d) :: tl, (ts, td, cd, ic), data, pos, rest, hb, hdrop => by
    have hc : readUint32 ⟨data, pos⟩ = .ok (c, ⟨data, pos + 4⟩) := by
      apply readUint32_of_drop data pos c (encodeU32 d ++ (encodeSTTSEntries tl ++ rest))
        (hb (c, d) (List.mem_cons_self _ _)).1
      rw [hdrop]
      simp [encodeSTTSEntries]
    have hdrop4 : data.drop (pos + 4) = encodeU32 d ++ (encodeSTTSEntries tl ++ rest) := by
      rw [← List.drop_drop]
      rw [hdrop]
      simp [encodeSTTSEntries, encodeU32]
    have hd : readUint32 ⟨data, pos + 4⟩ = .ok (d, ⟨data, pos + 4 + 4⟩) := by
      apply readUint32_of_drop data (pos + 4) d (encodeSTTSEntries tl ++ rest)
        (hb (c, d) (List.mem_cons_self _ _)).2
      exact hdrop4
    have hdrop8 : data.drop (pos + 4 + 4) = encodeSTTSEntries tl ++ rest := by
      rw [← List.drop_drop]
      rw [hdrop4]
      simp [encodeU32]
    have hrec := fpsLoop_encode tl
      (ts + c, td + c * d,
        if cd = -1 then (d : ℤ) else cd,
        if cd = -1 then ic else if cd ≠ (d : ℤ) then false else ic)
      data (pos + 4 + 4) rest
      (fun p hp => hb p (List.mem_cons_of_mem _ hp)) hdrop8
    show (fpsLoop ((c, d) :: tl).length (ts, td, cd, ic)) ⟨data, pos⟩ = _
    rw [List.length_cons, fpsLoop]
    simp only [bind, StateT.bind]
    rw [hc]
    simp only [Except.bind]
    rw [hd]
    simp only [Except.bind]
    rw [hrec]
    simp [fpsFold]
    omega

theorem calculateFrameRate_encoded (stblBox sttsBox : MOVBox) (cs : List MOVBox)
    (v f0 f1 f2 : ℕ) (entries : List (ℕ × ℕ)) (rest : List ℕ) (timeScale : ℕ)
    (hch : stblBox.children = some cs)
    (hfind : findBox cs "stts" = some sttsBox)
    (hdata : sttsBox.data = some (v :: f0 :: f1 :: f2 ::
      (encodeU32 entries.length ++ (encodeSTTSEntries entries ++ rest))))
    (hlen : entries.length < 4294967296)
    (hb : ∀ p ∈ entries, p.1 < 4294967296 ∧ p.2 < 4294967296) :
    calculateFrameRate stblBox timeScale = .ok (frameRatesOf entries timeScale) := by
  have h8 : readUint8 ⟨v :: f0 :: f1 :: f2 ::
      (encodeU32 entries.length ++ (encodeSTTSEntries entries ++ rest)), 0⟩ =
      .ok (v, ⟨v :: f0 :: f1 :: f2 ::
        (encodeU32 entries.length ++ (encodeSTTSEntries entries ++ rest)), 1⟩) := by
    simp [readUint8]
  have h24 : readUint24 ⟨v :: f0 :: f1 :: f2 ::
      (encodeU32 entries.length ++ (encodeSTTSEntries entries ++ rest)), 1⟩ =
      .ok (v * 0 + (f0 * 65536 + f1 * 256 + f2), ⟨v :: f0 :: f1 :: f2 ::
        (encodeU32 entries.length ++ (encodeSTTSEntries entries ++ rest)), 4⟩) := by
    simp [readUint24, readUint8, bind, StateT.bind, Except.bind, pure, StateT.pure,
      Except.pure]
  have h32 : readUint32 ⟨v :: f0 :: f1 :: f2 ::
      (encodeU32 entries.length ++ (encodeSTTSEntries entries ++ rest)), 4⟩ =
      .ok (entries.length, ⟨v :: f0 :: f1 :: f2 ::
        (encodeU32 entries.length ++ (encodeSTTSEntries entries ++ rest)), 4 + 4⟩) := by
    apply readUint32_of_drop _ _ _ (encodeSTTSEntries entries ++ rest) hlen
    rfl
  have hloop := fpsLoop_encode entries (0, 0, -1, true)
    (v :: f0 :: f1 :: f2 ::
      (encodeU32 entries.length ++ (encodeSTTSEntries entries ++ rest)))
    (4 + 4) rest hb
    (by
      show List.drop 4 (encodeU32 entries.length ++ (encodeSTTSEntries entries ++ rest)) = _
      rw [show (4 : ℕ) = (encodeU32 entries.length).length by simp [encodeU32]]
      exact List.drop_left _ _)
  simp only [calculateFrameRate, hch, hfind, hdata]
  simp only [StateT.run', StateT.run, bind, StateT.bind, Except.bind]
  rw [h8]
  simp only [Except.bind]
  rw [h24]
  simp only [Except.bind]
  rw [h32]
  simp only [Except.bind]
  by_cases hz : entries.length = 0
  · simp [hz, frameRatesOf, pure, StateT.pure, Except.pure]
  · rw [if_neg hz]
    simp only [bind, StateT.bind, Except.bind, pure, StateT.pure, Except.pure]
    rw [hloop]
    simp only [Except.bind]
    rcases hfold : fpsFold entries (0, 0, -1, true) with ⟨ts', td', cd', ic'⟩
    simp only [frameRatesOf, if_neg hz, hfold]
    by_cases hz2 : ts' = 0 ∨ td' = 0
    · simp [hz2, pure, StateT.pure, Except.pure, StateT.bind, bind, Except.bind]
    · simp [hz2, pure, StateT.pure, Except.pure, StateT.bind, bind, Except.bind]

theorem fpsFold_sums :
    ∀ (entries : List (ℕ × ℕ)) (a b : ℕ) (cd : ℤ) (ic : Bool),
      (fpsFold entries (a, b, cd, ic)).1 = a + (entries.map Prod.fst).sum ∧
      (fpsFold entries (a, b, cd, ic)).2.1 =
        b + (entries.map fun p => p.1 * p.2).sum
  | [], a, b, cd, ic => by simp [fpsFold]
  | (c, d) :: tl, a, b, cd, ic => by
    rw [fpsFold]
    refine ⟨?_, ?_⟩
    · rw [(fpsFold_sums tl (a + c) (b + c * d) _ _).1]
      simp [List.sum_cons]
      omega
    · rw [(fpsFold_sums tl (a + c) (b + c * d) _ _).2]
      simp [List.sum_cons]
      omega

theorem fpsFold_const_keep (d0 : ℕ) :
    ∀ (entries : List (ℕ × ℕ)), (∀ p ∈ entries, p.2 = d0) →
      ∀ (a b : ℕ), (fpsFold entries (a, b, (d0 : ℤ), true)).2.2 = ((d0 : ℤ), true)
  | [], _, a, b => by simp [fpsFold]
  | (c, d) :: tl, h, a, b => by
    have hd : d = d0 := h (c, d) (List.mem_cons_self _ _)
    rw [fpsFold, hd]
    have hne : ¬((d0 : ℤ) = -1) := by omega
    simp only [if_neg hne, ne_eq, not_true_eq_false, if_false, ite_self]
    exact fpsFold_const_keep d0 tl (fun p hp => h p (List.mem_cons_of_mem _ hp)) _ _

theorem fpsFold_allconst (d0 : ℕ) :
    ∀ (entries : List (ℕ × ℕ)), entries ≠ [] → (∀ p ∈ entries, p.2 = d0) →
      (fpsFold entries (0, 0, -1, true)).2.2 = ((d0 : ℤ), true)
  | [], h, _ => absurd rfl h
  | (c, d) :: tl, _, h => by
    have hd : d = d0 := h (c, d) (List.mem_cons_self _ _)
    rw [fpsFold, hd]
    simp only [if_pos rfl]
    exact fpsFold_const_keep d0 tl (fun p hp => h p (List.mem_cons_of_mem _ hp)) _ _

theorem sum_map_mul_const (d0 : ℕ) :
    ∀ entries : List (ℕ × ℕ), (∀ p ∈ entries, p.2 = d0) →
      (entries.map fun p => p.1 * p.2).sum = (entries.map Prod.fst).sum * d0
  | [], _ => by simp
  | (c, d) :: tl, h => by
    have hd : d = d0 := h (c, d) (List.mem_cons_self _ _)
    simp only [List.map_cons, List.sum_cons]
    rw [hd, sum_map_mul_const d0 tl (fun p hp => h p (List.mem_cons_of_mem _ hp)),
      Nat.add_mul]

/-- C9: for a video track whose `stbl` carries an `stts` payload encoding
`entries` (big-endian, with in-range field values): when all deltas equal a
positive `d0` and the total sample count is non-zero, the reported
`frameRate` and `avgFrameRate` are both `round3(timeScale / d0)` — so
`getFrameRateInfo` reports `isConstant = true` (last conjunct); with positive
totals the average component is always
`round3(totalSamples · timeScale / totalDuration)`; and when `stts` is absent
or the totals are zero, both rates are omitted (`none`). -/
theorem c9_frame_rate_derivation (stblBox sttsBox : MOVBox) (cs : List MOVBox)
    (v f0 f1 f2 : ℕ) (entries : List (ℕ × ℕ)) (rest : List ℕ) (timeScale : ℕ)
    (hch : stblBox.children = some cs)
    (hfind : findBox cs "stts" = some sttsBox)
    (hdata : sttsBox.data = some (v :: f0 :: f1 :: f2 ::
      (encodeU32 entries.length ++ (encodeSTTSEntries entries ++ rest))))
    (hlen : entries.length < 4294967296)
    (hb : ∀ p ∈ entries, p.1 < 4294967296 ∧ p.2 < 4294967296) :
    (∀ d0 : ℕ, 0 < d0 → (∀ p ∈ entries, p.2 = d0) → entries ≠ [] →
      (entries.map Prod.fst).sum ≠ 0 →
      calculateFrameRate stblBox timeScale =
        .ok (some (round3 ((timeScale : ℚ) / (d0 : ℚ)),
                   round3 ((timeScale : ℚ) / (d0 : ℚ))))) ∧
    ((entries.map Prod.fst).sum ≠ 0 →
      (entries.map fun p => p.1 * p.2).sum ≠ 0 →
      ∃ fr, calculateFrameRate stblBox timeScale =
        .ok (some (fr,
          round3 ((((entries.map Prod.fst).sum : ℚ) * (timeScale : ℚ)) /
            ((((entries.map fun p => p.1 * p.2).sum : ℕ)) : ℚ))))) ∧
    ((entries.map Prod.fst).sum = 0 ∨ (entries.map fun p => p.1 * p.2).sum = 0 →
      calculateFrameRate stblBox timeScale = .ok none) ∧
    (∀ (otherStbl : MOVBox) (cs2 : List MOVBox), otherStbl.children = some cs2 →
      findBox cs2 "stts" = none →
      calculateFrameRate otherStbl timeScale = .ok none) ∧
    (∀ s : MOVStreamContext, s.type = .video → s.frameRate = s.avgFrameRate →
      getFrameRateInfo [s] = [⟨s.id, s.frameRate, s.avgFrameRate, true⟩]) := by
  have hrun := calculateFrameRate_encoded stblBox sttsBox cs v f0 f1 f2 entries
    rest timeScale hch hfind hdata hlen hb
  refine ⟨?_, ?_, ?_, ?_, ?_⟩
  · intro d0 hd0 hall hne hsum
    rw [hrun]
    have hlen0 : ¬(entries.length = 0) := fun hc => hne (List.length_eq_zero.mp hc)
    rcases hfold : fpsFold entries (0, 0, -1, true) with ⟨ts', td', cd', ic'⟩
    have hts' : ts' = (entries.map Prod.fst).sum := by
      have h := (fpsFold_sums entries 0 0 (-1) true).1
      rw [hfold] at h
      simpa using h
    have htd' : td' = (entries.map fun p => p.1 * p.2).sum := by
      have h := (fpsFold_sums entries 0 0 (-1) true).2
      rw [hfold] at h
      simpa using h
    have hcdic : cd' = (d0 : ℤ) ∧ ic' = true := by
      have h := fpsFold_allconst d0 entries hne hall
      rw [hfold] at h
      simp only [Prod.mk.injEq] at h
      exact h
    obtain ⟨hcd', hic'⟩ := hcdic
    subst hcd'
    subst hic'
    subst hts'
    subst htd'
    have hSD : (entries.map fun p => p.1 * p.2).sum =
        (entries.map Prod.fst).sum * d0 := sum_map_mul_const d0 entries hall
    have hSDne : (entries.map fun p => p.1 * p.2).sum ≠ 0 := by
      rw [hSD]
      exact Nat.mul_ne_zero hsum (by omega)
    simp only [frameRatesOf, if_neg hlen0, hfold]
    rw [if_neg (by push_neg; exact ⟨hsum, hSDne⟩)]
    rw [if_pos (by refine ⟨?_, by exact_mod_cast hd0⟩; trivial :
      _ ∧ (0 : ℤ) < (d0 : ℤ))]
    have havg : (((entries.map Prod.fst).sum : ℚ) * (timeScale : ℚ)) /
        ((((entries.map fun p => p.1 * p.2).sum : ℕ)) : ℚ) =
        (timeScale : ℚ) / (d0 : ℚ) := by
      rw [hSD, Nat.cast_mul]
      exact mul_div_mul_left _ _ (Nat.cast_ne_zero.mpr hsum)
    rw [havg]
    push_cast
    rfl
  · intro hsum hsumd
    rw [hrun]
    have hne : entries ≠ [] := by
      intro hc
      rw [hc] at hsum
      simp at hsum
    have hlen0 : ¬(entries.length = 0) := fun hc => hne (List.length_eq_zero.mp hc)
    rcases hfold : fpsFold entries (0, 0, -1, true) with ⟨ts', td', cd', ic'⟩
    have hts' : ts' = (entries.map Prod.fst).sum := by
      have h := (fpsFold_sums entries 0 0 (-1) true).1
      rw [hfold] at h
      simpa using h
    have htd' : td' = (entries.map fun p => p.1 * p.2).sum := by
      have h := (fpsFold_sums entries 0 0 (-1) true).2
      rw [hfold] at h
      simpa using h
    subst hts'
    subst htd'
    simp only [frameRatesOf, if_neg hlen0, hfold]
    rw [if_neg (by push_neg; exact ⟨hsum, hsumd⟩)]
    exact ⟨_, rfl⟩
  · intro hz
    rw [hrun]
    by_cases hlen0 : entries.length = 0
    · simp [frameRatesOf, hlen0]
    · rcases hfold : fpsFold entries (0, 0, -1, true) with ⟨ts', td', cd', ic'⟩
      have hts' : ts' = (entries.map Prod.fst).sum := by
        have h := (fpsFold_sums entries 0 0 (-1) true).1
        rw [hfold] at h
        simpa using h
      have htd' : td' = (entries.map fun p => p.1 * p.2).sum := by
        have h := (fpsFold_sums entries 0 0 (-1) true).2
        rw [hfold] at h
        simpa using h
      subst hts'
      subst htd'
      simp only [frameRatesOf, if_neg hlen0, hfold]
      rw [if_pos hz]
  · intro otherStbl cs2 h1 h2
    simp only [calculateFrameRate, h1, h2]
    rfl
  · intro s h1 h2
    simp [getFrameRateInfo, h1, h2]

/-- Witness for `c9_frame_rate_derivation`: an `stts` of one entry
`(count 2, delta 300)` at `timeScale = 600` reports a constant
2 fps in both components. -/
theorem c9_frame_rate_derivation_witness :
    ((0 : ℕ) < 300 ∧ (∀ p ∈ ([(2, 300)] : List (ℕ × ℕ)), p.2 = 300) ∧
      (([(2, 300)] : List (ℕ × ℕ)).map Prod.fst).sum ≠ 0) ∧
    calculateFrameRate
      (MOVBox.mk "stbl" 0 0 none (some [MOVBox.mk "stts" 0 0
        (some (0 :: 0 :: 0 :: 0 ::
          (encodeU32 ([((2 : ℕ), (300 : ℕ))] : List (ℕ × ℕ)).length ++
            (encodeSTTSEntries [(2, 300)] ++ [])))) none])) 600 =
      .ok (some (round3 (((600 : ℕ) : ℚ) / ((300 : ℕ) : ℚ)),
                 round3 (((600 : ℕ) : ℚ) / ((300 : ℕ) : ℚ)))) :=
  ⟨⟨by decide, by decide, by decide⟩,
   (c9_frame_rate_derivation
      (MOVBox.mk "stbl" 0 0 none (some [MOVBox.mk "stts" 0 0
        (some (0 :: 0 :: 0 :: 0 ::
          (encodeU32 ([((2 : ℕ), (300 : ℕ))] : List (ℕ × ℕ)).length ++
            (encodeSTTSEntries [(2, 300)] ++ [])))) none]))
      (MOVBox.mk "stts" 0 0
        (some (0 :: 0 :: 0 :: 0 ::
          (encodeU32 ([((2 : ℕ), (300 : ℕ))] : List (ℕ × ℕ)).length ++
            (encodeSTTSEntries [(2, 300)] ++ [])))) none)
      [MOVBox.mk "stts" 0 0
        (some (0 :: 0 :: 0 :: 0 ::
          (encodeU32 ([((2 : ℕ), (300 : ℕ))] : List (ℕ × ℕ)).length ++
            (encodeSTTSEntries [(2, 300)] ++ [])))) none]
      0 0 0 0 [(2, 300)] [] 600 rfl (by with_unfolding_all rfl) rfl
      (by decide) (by decide)).1
      300 (by decide) (by decide) (by decide) (by decide)⟩

end MovDemuxer
